import Mathlib

/-!
The JavaScript facade `FS.common.js` of react-native-fs.

A shallow embedding of the facade over the native bridge `RNFSManager`:
path normalisation, the base64 transcoding of file contents, the directory
listing conversion, the availability guards and the `touch` and `write`
argument handling, together with the ECMAScript and HTML builtins the facade
calls (`encodeURIComponent`, `unescape`, `btoa`, `atob`, `escape`,
`decodeURIComponent`, `new Date`).

Conventions of the embedding:

* a JavaScript string is the list of its UTF-16 code units;
* a JavaScript number is modelled by an integer (the integer-valued doubles),
  with `NaN` kept as a separate value; numbers with a fractional part, whose
  arithmetic is floating point, are outside the embedding;
* a builtin that can throw returns `Option`, `none` standing for the throw;
  the caller names the exception;
* a facade operation returns the bridge invocations it made together with
  how it completed (synchronous throw, resolved promise, rejected promise).
-/

namespace RNFS

/-! ## JavaScript strings -/

/-- A JavaScript string: the sequence of its UTF-16 code units. -/
abbrev JSString := List Nat

/-- The string literal "file://". -/
def filePrefix : JSString := [102, 105, 108, 101, 58, 47, 47]

/-- The string literal "utf8". -/
def utf8 : JSString := [117, 116, 102, 56]

/-- The string literal "ascii". -/
def ascii : JSString := [97, 115, 99, 105, 105]

/-- The string literal "base64". -/
def base64 : JSString := [98, 97, 115, 101, 54, 52]

/-- ASCII letters and decimal digits. -/
def isAlnum (c : Nat) : Bool :=
  (48 ≤ c && c ≤ 57) || (65 ≤ c && c ≤ 90) || (97 ≤ c && c ≤ 122)

/-- Leading (high) surrogate code unit, 0xD800 to 0xDBFF. -/
def isLeadSurrogate (c : Nat) : Bool := 0xD800 ≤ c && c ≤ 0xDBFF

/-- Trailing (low) surrogate code unit, 0xDC00 to 0xDFFF. -/
def isTrailSurrogate (c : Nat) : Bool := 0xDC00 ≤ c && c ≤ 0xDFFF

/-- Uppercase hexadecimal digit character of a value below 16. -/
def hexChar (d : Nat) : Nat := if d < 10 then 48 + d else 55 + d

/-- Value of a hexadecimal digit character (either case), if it is one. -/
def hexVal (c : Nat) : Option Nat :=
  if 48 ≤ c ∧ c ≤ 57 then some (c - 48)
  else if 65 ≤ c ∧ c ≤ 70 then some (c - 55)
  else if 97 ≤ c ∧ c ≤ 102 then some (c - 87)
  else none

/-- A partial function applied to every element of a list: `none` when
it is undefined on one of them. -/
def mapAll (f : Nat → Option Nat) : List Nat → Option (List Nat)
  | [] => some []
  | x :: xs =>
    match f x, mapAll f xs with
    | some y, some ys => some (y :: ys)
    | _, _ => none

/-- The three code units "%XX" of one octet, uppercase hex. -/
def pctOctet (b : Nat) : JSString := [37, hexChar (b / 16), hexChar (b % 16)]

/-- UTF-8 encoding of a code point (ECMA-262, Encode step: "the List of
octets resulting by applying the UTF-8 transformation"). -/
def utf8Encode (cp : Nat) : List Nat :=
  if cp < 0x80 then [cp]
  else if cp < 0x800 then [0xC0 + cp / 64, 0x80 + cp % 64]
  else if cp < 0x10000 then [0xE0 + cp / 4096, 0x80 + cp / 64 % 64, 0x80 + cp % 64]
  else [0xF0 + cp / 262144, 0x80 + cp / 4096 % 64, 0x80 + cp / 64 % 64, 0x80 + cp % 64]

/-- UTF16SurrogatePairToCodePoint of ECMA-262. -/
def surrogatePairToCodePoint (lead trail : Nat) : Nat :=
  (lead - 0xD800) * 0x400 + (trail - 0xDC00) + 0x10000

/-- UTF16EncodeCodePoint of ECMA-262. -/
def utf16Encode (cp : Nat) : JSString :=
  if cp ≤ 0xFFFF then [cp]
  else [(cp - 0x10000) / 0x400 + 0xD800, (cp - 0x10000) % 0x400 + 0xDC00]

/-! ## `encodeURIComponent` -/

/-- The unreserved set of `encodeURIComponent`: ASCII letters, digits and
the marks hyphen, underscore, dot, exclamation mark, tilde, asterisk,
apostrophe and the two round brackets. -/
def uriUnreserved (c : Nat) : Bool :=
  isAlnum c || c = 45 || c = 95 || c = 46 || c = 33 || c = 126 || c = 42 || c = 39
    || c = 40 || c = 41

/-- The loop of Encode (ECMA-262 19.2.6.5). `skip` is the number of code
units still to step over (the second half of a surrogate pair, consumed with
its lead by CodePointAt). `none` stands for the URIError thrown on an
unpaired surrogate. -/
def encodeURIComponentAux : Nat → JSString → Option JSString
  | _, [] => some []
  | skip + 1, _ :: rest => encodeURIComponentAux skip rest
  | 0, c :: rest =>
    if uriUnreserved c then (c :: ·) <$> encodeURIComponentAux 0 rest
    else if isLeadSurrogate c then
      match rest.head? with
      | none => none
      | some d =>
        if isTrailSurrogate d then
          ((utf8Encode (surrogatePairToCodePoint c d)).flatMap pctOctet ++ ·) <$>
            encodeURIComponentAux 1 rest
        else none
    else if isTrailSurrogate c then none
    else ((utf8Encode c).flatMap pctOctet ++ ·) <$> encodeURIComponentAux 0 rest

/-- The builtin `encodeURIComponent` on a string; `none`: throws URIError. -/
def encodeURIComponent (s : JSString) : Option JSString := encodeURIComponentAux 0 s

/-! ## `unescape` and `escape` (ECMA-262 Annex B.2.1) -/

/-- The loop of `unescape`. At a percent sign followed by the letter u and
four hex digits (k + 5 < len in the standard) the code unit
they denote is produced and five units skipped; otherwise at a percent sign
followed by two hex digits the code unit they denote is produced and two skipped;
otherwise the unit is copied. -/
def unescapeAux : Nat → JSString → JSString
  | _, [] => []
  | skip + 1, _ :: rest => unescapeAux skip rest
  | 0, c :: rest =>
    if c = 37 then
      if 5 ≤ rest.length ∧ rest.head? = some 117 then
        match mapAll hexVal ((rest.drop 1).take 4) with
        | some [a, b, c', d] => (((a * 16 + b) * 16 + c') * 16 + d) :: unescapeAux 5 rest
        | _ => c :: unescapeAux 0 rest
      else if 2 ≤ rest.length then
        match mapAll hexVal (rest.take 2) with
        | some [a, b] => (a * 16 + b) :: unescapeAux 2 rest
        | _ => c :: unescapeAux 0 rest
      else c :: unescapeAux 0 rest
    else c :: unescapeAux 0 rest

/-- The builtin `unescape`. -/
def unescape (s : JSString) : JSString := unescapeAux 0 s

/-- The set `escape` leaves unescaped: ASCII word characters and the six
characters at sign, asterisk, plus, hyphen, dot and slash. -/
def escapeUnescaped (c : Nat) : Bool :=
  isAlnum c || c = 95 || c = 64 || c = 42 || c = 43 || c = 45 || c = 46 || c = 47

/-- What `escape` emits for one code unit: itself, "%XX" below 256, else
"%uXXXX". -/
def escapeUnit (c : Nat) : JSString :=
  if escapeUnescaped c then [c]
  else if c < 256 then pctOctet c
  else [37, 117, hexChar (c / 4096), hexChar (c / 256 % 16), hexChar (c / 16 % 16),
        hexChar (c % 16)]

/-- The builtin `escape`. -/
def escape (s : JSString) : JSString := s.flatMap escapeUnit

/-! ## `btoa` and `atob` (HTML standard, forgiving-base64) -/

/-- Character of the base64 alphabet for a 6-bit value. -/
def b64Char (v : Nat) : Nat :=
  if v < 26 then 65 + v
  else if v < 52 then 71 + v
  else if v < 62 then v - 4
  else if v = 62 then 43
  else 47

/-- The 6-bit value of a base64 alphabet character, if it is one. -/
def b64Val (c : Nat) : Option Nat :=
  if 65 ≤ c ∧ c ≤ 90 then some (c - 65)
  else if 97 ≤ c ∧ c ≤ 122 then some (c - 71)
  else if 48 ≤ c ∧ c ≤ 57 then some (c + 4)
  else if c = 43 then some 62
  else if c = 47 then some 63
  else none

/-- The 6-bit groups of a byte sequence, most significant bits first; a last
group that is incomplete is filled with zero bits (RFC 4648, section 4). -/
def toSextets : List Nat → List Nat
  | [] => []
  | [a] => [a / 4, a % 4 * 16]
  | [a, b] => [a / 4, a % 4 * 16 + b / 16, b % 16 * 4]
  | a :: b :: c :: rest =>
    a / 4 :: (a % 4 * 16 + b / 16) :: (b % 16 * 4 + c / 64) :: c % 64 :: toSextets rest

/-- Base64 encoding of a byte sequence (RFC 4648): the alphabet characters
of its 6-bit groups, padded with equals signs to a multiple of four. -/
def base64Encode (bytes : List Nat) : JSString :=
  (toSextets bytes).map b64Char ++ List.replicate ((3 - bytes.length % 3) % 3) 61

/-- The builtin `btoa`; `none`: throws InvalidCharacterError (a code unit
above 0xFF). -/
def btoa (data : JSString) : Option JSString :=
  if data.all (· ≤ 0xFF) then some (base64Encode data) else none

/-- ASCII whitespace: tab, line feed, form feed, carriage return, space. -/
def isAsciiWhitespace (c : Nat) : Bool :=
  c = 9 || c = 10 || c = 12 || c = 13 || c = 32

/-- Removal of one or two trailing equals signs (forgiving-base64 decode,
step 2.1). -/
def stripPadding (d : JSString) : JSString :=
  if d.getLast? = some 61 then
    if d.dropLast.getLast? = some 61 then d.dropLast.dropLast else d.dropLast
  else d

/-- Bytes of a sequence of 6-bit values: three bytes per four values, and
for a last group of three or two values, two bytes or one, the left-over
bits being discarded (forgiving-base64 decode, steps 8 to 10). -/
def decodeSextets : List Nat → List Nat
  | a :: b :: c :: d :: rest =>
    (a * 4 + b / 16) :: (b % 16 * 16 + c / 4) :: (c % 4 * 64 + d) :: decodeSextets rest
  | [a, b, c] => [a * 4 + b / 16, b % 16 * 16 + c / 4]
  | [a, b] => [a * 4 + b / 16]
  | _ => []

/-- The builtin `atob`; `none`: throws InvalidCharacterError. -/
def atob (data : JSString) : Option JSString :=
  let d := data.filter (fun c => !isAsciiWhitespace c)
  let d := if d.length % 4 = 0 then stripPadding d else d
  if d.length % 4 = 1 then none
  else (mapAll b64Val d).map decodeSextets

/-! ## `decodeURIComponent` -/

/-- ParseHexOctet of ECMA-262: the octet written by the first two code
units, if both are hex digits. -/
def parseHexOctet (s : JSString) : Option Nat :=
  match s with
  | h :: l :: _ =>
    match hexVal h, hexVal l with
    | some a, some b => some (a * 16 + b)
    | _, _ => none
  | _ => none

/-- Number of leading 1 bits of an octet (5 stands for five or more). -/
def leadingOnes (b : Nat) : Nat :=
  if b < 0x80 then 0 else if b < 0xC0 then 1 else if b < 0xE0 then 2
  else if b < 0xF0 then 3 else if b < 0xF8 then 4 else 5

/-- The `n` continuation escapes "%XX" at the head of `s`. -/
def parseContinuation : Nat → JSString → Option (List Nat)
  | 0, _ => some []
  | n + 1, s =>
    match s with
    | 37 :: t =>
      match parseHexOctet t with
      | some b => (b :: ·) <$> parseContinuation n (t.drop 2)
      | none => none
    | _ => none

/-- Continuation octet, 0x80 to 0xBF. -/
def isContinuation (b : Nat) : Bool := 0x80 ≤ b && b ≤ 0xBF

/-- The code point of a well-formed UTF-8 sequence of two to four octets
(Unicode 3.9, table 3-7: continuation octets in range, no overlong form, no
surrogate, at most 0x10FFFF); `none` if the octets are not one. -/
def utf8Decode : List Nat → Option Nat
  | [b0, b1] =>
    let v := (b0 - 0xC0) * 64 + (b1 - 0x80)
    if isContinuation b1 ∧ 0x80 ≤ v then some v else none
  | [b0, b1, b2] =>
    let v := ((b0 - 0xE0) * 64 + (b1 - 0x80)) * 64 + (b2 - 0x80)
    if isContinuation b1 ∧ isContinuation b2 ∧ 0x800 ≤ v ∧ ¬ (0xD800 ≤ v ∧ v ≤ 0xDFFF)
    then some v else none
  | [b0, b1, b2, b3] =>
    let v := (((b0 - 0xF0) * 64 + (b1 - 0x80)) * 64 + (b2 - 0x80)) * 64 + (b3 - 0x80)
    if isContinuation b1 ∧ isContinuation b2 ∧ isContinuation b3 ∧ 0x10000 ≤ v ∧ v ≤ 0x10FFFF
    then some v else none
  | _ => none

/-- The loop of Decode (ECMA-262 19.2.6.6) with an empty preserved set.
`skip` is the number of code units of the current escape still to step over.
`none` stands for the URIError. -/
def decodeURIComponentAux : Nat → JSString → Option JSString
  | _, [] => some []
  | skip + 1, _ :: rest => decodeURIComponentAux skip rest
  | 0, c :: rest =>
    if c = 37 then
      match parseHexOctet rest with
      | none => none
      | some b =>
        let n := leadingOnes b
        if n = 0 then (b :: ·) <$> decodeURIComponentAux 2 rest
        else if n = 1 ∨ 4 < n then none
        else
          match parseContinuation (n - 1) (rest.drop 2) with
          | none => none
          | some octets =>
            match utf8Decode (b :: octets) with
            | none => none
            | some v => (utf16Encode v ++ ·) <$> decodeURIComponentAux (2 + 3 * (n - 1)) rest
    else (c :: ·) <$> decodeURIComponentAux 0 rest

/-- The builtin `decodeURIComponent`; `none`: throws URIError. -/
def decodeURIComponent (s : JSString) : Option JSString := decodeURIComponentAux 0 s

/-! ## JavaScript values and errors -/

/-- Time value of a Date object: epoch milliseconds, `none` for NaN (an
Invalid Date). -/
abbrev TimeValue := Option Int

/-- The JavaScript values the facade handles. A plain object is the list of
its own properties (the first binding of a key is the property). -/
inductive JSValue
  | undefined
  | null
  | boolean (b : Bool)
  | number (n : Int)
  | nan
  | string (s : JSString)
  | date (t : TimeValue)
  | object (fields : List (String × JSValue))

/-- Primitive values, the kind of value the bridge uses as file type codes
(an integer on Android, a string on iOS); `===` on them is equality. -/
inductive JSPrim
  | undefined
  | null
  | boolean (b : Bool)
  | number (n : Int)
  | string (s : JSString)
  deriving DecidableEq

/-- What the facade throws, or a promise is rejected with. -/
inductive JSError
  /-- An `Error` built from a literal message: `new Error(message)`. -/
  | error (message : String)
  /-- The `Error` of `encode` and `decode`, whose message is the template
  "Invalid encoding type" followed by the quoted string conversion of the
  offending `encoding` value (a value that has a string conversion). -/
  | invalidEncoding (encoding : JSValue)
  /-- URIError of `encodeURIComponent` and `decodeURIComponent`. -/
  | uriError
  /-- InvalidCharacterError of `btoa` and `atob`. -/
  | invalidCharacterError
  /-- TypeError of a string conversion that cannot produce a primitive. -/
  | typeError
  /-- A rejection reported by the bridge itself. -/
  | native (reason : JSValue)

namespace JSValue

/-- ToBoolean. -/
def truthy : JSValue → Bool
  | undefined => false
  | null => false
  | boolean b => b
  | number n => n ≠ 0
  | nan => false
  | string s => !s.isEmpty
  | date _ => true
  | object _ => true

/-- The result of `typeof`. -/
def typeof : JSValue → String
  | undefined => "undefined"
  | null => "object"
  | boolean _ => "boolean"
  | number _ => "number"
  | nan => "number"
  | string _ => "string"
  | date _ => "object"
  | object _ => "object"

/-- Strict equality `v === lit` with a string literal. -/
def strictEqString (v : JSValue) (lit : JSString) : Bool :=
  match v with
  | string s => s == lit
  | _ => false

/-- The test `v instanceof Date`. -/
def instanceofDate : JSValue → Bool
  | date _ => true
  | _ => false

/-- Property read `v.key` on an object value: the property if the object has
it, else `undefined` (a Date has no such own property). -/
def getProp (v : JSValue) (key : String) : JSValue :=
  match v with
  | object fields => (fields.lookup key).getD undefined
  | _ => undefined

/-- Own enumerable properties, as copied by object spread. -/
def ownFields : JSValue → List (String × JSValue)
  | object fields => fields
  | _ => []

/-- Whether ToString, the conversion a template literal applies to an
interpolated value, completes on `v`. Every primitive of the model has a
string conversion, and so has a Date (Date.prototype.toString). A plain
object is converted by OrdinaryToPrimitive, which calls `toString` and then
`valueOf` if they are callable: an object without an own `toString` inherits
Object.prototype.toString and converts; an own `toString` property hides it,
and since no value of the model is callable and the inherited `valueOf`
returns the object itself, the conversion then throws TypeError. -/
def hasStringConversion : JSValue → Bool
  | object fields => (fields.lookup "toString").isNone
  | _ => true

/-- Date.prototype.getTime. -/
def getTime : JSValue → JSValue
  | date (some t) => number t
  | date none => nan
  | _ => undefined

end JSValue

/-- TimeClip of ECMA-262: a time value beyond 8.64e15 milliseconds in
magnitude is NaN. -/
def timeClip (t : TimeValue) : TimeValue :=
  match t with
  | some ms => if ms.natAbs ≤ 8640000000000000 then some ms else none
  | none => none

/-- The expression `new Date(value)` for a numeric time value. -/
def newDate (t : TimeValue) : JSValue := .date (timeClip t)

/-! ## Path and encoding helpers of the facade -/

/-- Source line 16:
`(path) => (path.startsWith("file://") ? path.slice(7) : path)`. -/
def normalizeFilePath (path : JSString) : JSString :=
  if filePrefix.isPrefixOf path then path.drop 7 else path

/-- Source lines 18-23, `encode(contents, encoding)`. The last line builds
the message of the `Error` by interpolating `encoding` in a template
literal: when that string conversion throws, its TypeError is what `encode`
throws. -/
def encode (contents : JSString) (encoding : JSValue) : Except JSError JSString :=
  if encoding.strictEqString utf8 then
    match encodeURIComponent contents with
    | none => .error .uriError
    | some escaped =>
      match btoa (unescape escaped) with
      | none => .error .invalidCharacterError
      | some b64 => .ok b64
  else if encoding.strictEqString ascii then
    match btoa contents with
    | none => .error .invalidCharacterError
    | some b64 => .ok b64
  else if encoding.strictEqString base64 then .ok contents
  else if encoding.hasStringConversion then .error (.invalidEncoding encoding)
  else .error .typeError

/-- Source lines 25-30, `decode(b64, encoding)`; the last line as in
`encode`. -/
def decode (b64 : JSString) (encoding : JSValue) : Except JSError JSString :=
  if encoding.strictEqString utf8 then
    match atob b64 with
    | none => .error .invalidCharacterError
    | some bytes =>
      match decodeURIComponent (escape bytes) with
      | none => .error .uriError
      | some s => .ok s
  else if encoding.strictEqString ascii then
    match atob b64 with
    | none => .error .invalidCharacterError
    | some bytes => .ok bytes
  else if encoding.strictEqString base64 then .ok b64
  else if encoding.hasStringConversion then .error (.invalidEncoding encoding)
  else .error .typeError

/-- The initial value of `options`: the object literal with the single
property `encoding` set to "utf8". -/
def defaultOptions : JSValue := .object [("encoding", .string utf8)]

/-- The options stanza that `readFileGeneric` (lines 36-46), `read`
(172-182), `appendFile` (266-276) and `write` (284-294) each carry verbatim:
a truthy string sets `options.encoding`, a truthy object REPLACES `options`,
anything else leaves the default. The result is the final `options`. -/
def resolveOptions (encodingOrOptions : JSValue) : JSValue :=
  if encodingOrOptions.truthy then
    if encodingOrOptions.typeof = "string" then
      .object [("encoding", encodingOrOptions)]
    else if encodingOrOptions.typeof = "object" then
      encodingOrOptions
    else defaultOptions
  else defaultOptions

/-- The options stanza of `writeFile` (lines 241-254): as `resolveOptions`,
but a truthy object is spread over the default options. -/
def resolveOptionsWriteFile (encodingOrOptions : JSValue) : JSValue :=
  if encodingOrOptions.truthy then
    if encodingOrOptions.typeof = "string" then
      .object [("encoding", encodingOrOptions)]
    else if encodingOrOptions.typeof = "object" then
      .object (encodingOrOptions.ownFields ++ defaultOptions.ownFields)
    else defaultOptions
  else defaultOptions

/-! ## The native bridge `RNFSManager` and the shape of a facade call -/

/-- How a promise settles. -/
inductive Settled (α : Type)
  | resolved (value : α)
  | rejected (reason : JSError)

/-- A raw time field of a directory row: absent, NaN, or an integer number
of epoch seconds. A number with a fractional part is outside the embedding:
its product by 1000 is a rounded floating-point product, which `new Date`
then truncates to whole milliseconds. -/
inductive TimeField
  | absent
  | nan
  | number (secs : Int)

/-- A raw directory row as the bridge reports it. -/
structure RawFile where
  ctime : TimeField
  mtime : TimeField
  name : JSValue
  path : JSValue
  size : JSValue
  type : JSPrim

/-- The bridge object `RNFSManager`, a parameter of the facade: its two
type-code constants (set by the native modules, read at lines 13-14) and its
functions, each given by the promise it returns for its arguments. The
Android-only functions may be missing (`none`). -/
structure Bridge where
  RNFSFileTypeRegular : JSPrim
  RNFSFileTypeDirectory : JSPrim
  readDir : JSString → Settled (List RawFile)
  readDirAssets : Option (JSString → Settled (List RawFile))
  existsAssets : Option (JSValue → Settled JSValue)
  existsRes : Option (JSValue → Settled JSValue)
  readFile : JSString → Settled JSString
  read : JSString → JSValue → JSValue → Settled JSString
  readFileAssets : Option (JSString → Settled JSString)
  readFileRes : Option (JSString → Settled JSString)
  copyFileAssets : Option (JSString → JSString → Settled JSValue)
  copyFileRes : Option (JSValue → JSString → Settled JSValue)
  writeFile : JSString → JSString → JSValue → Settled JSValue
  appendFile : JSString → JSString → Settled JSValue
  write : JSString → JSString → JSValue → Settled JSValue
  touch : JSString → JSValue → JSValue → Settled JSValue

/-- One invocation of a bridge function: its name and its arguments. -/
structure Call where
  name : String
  args : List JSValue

/-- How a facade call completes: it throws synchronously, or it returns a
promise that resolves or rejects. -/
inductive Outcome (α : Type)
  | threw (e : JSError)
  | resolved (value : α)
  | rejected (reason : JSError)

/-- Whether the call threw synchronously. -/
def Outcome.isThrow {α : Type} : Outcome α → Bool
  | .threw _ => true
  | _ => false

/-- A facade call: the bridge invocations it made, in order, and how it
completed. -/
structure Run (α : Type) where
  calls : List Call
  outcome : Outcome α

/-- A `throw` before any bridge invocation. -/
def throwNow {α : Type} (e : JSError) : Run α := { calls := [], outcome := .threw e }

/-- The invocation of the bridge function `name` on `args`, returning the
promise `p`. -/
def invoke {α : Type} (name : String) (args : List JSValue) (p : Settled α) : Run α :=
  { calls := [{ name := name, args := args }]
    outcome := match p with
      | .resolved v => .resolved v
      | .rejected e => .rejected e }

/-- Promise chaining `.then(f)`: a resolved value goes through `f`, whose
throw rejects the chained promise; a rejection passes through. -/
def Run.andThen {α β : Type} (r : Run α) (f : α → Except JSError β) : Run β :=
  { calls := r.calls
    outcome := match r.outcome with
      | .threw e => .threw e
      | .rejected e => .rejected e
      | .resolved v =>
        match f v with
        | .ok w => .resolved w
        | .error e => .rejected e }

/-! ## Reading -/

/-- Source lines 35-49, `readFileGeneric(filepath, encodingOrOptions, command)`. -/
def readFileGeneric (filepath : JSString) (encodingOrOptions : JSValue)
    (command : JSString → Run JSString) : Run JSString :=
  let options := resolveOptions encodingOrOptions
  (command (normalizeFilePath filepath)).andThen
    (fun b64 => decode b64 (options.getProp "encoding"))

/-- A directory entry as the facade returns it; `isFile` and `isDirectory`
are the two closures of the entry. -/
structure Entry where
  ctime : JSValue
  mtime : JSValue
  name : JSValue
  path : JSValue
  size : JSValue
  isFile : Unit → Bool
  isDirectory : Unit → Bool

/-- The value read from a raw time field: `undefined` when absent. -/
def rawTime (t : TimeField) : JSValue :=
  match t with
  | .absent => .undefined
  | .nan => .nan
  | .number secs => .number secs

/-- The product `file.ctime * 1000` as a time value: NaN when the field is
absent or NaN, exact on an integer. -/
def timesThousand (t : TimeField) : TimeValue :=
  match t with
  | .absent => none
  | .nan => none
  | .number secs => some (secs * 1000)

/-- Source lines 57-58, the expression
`file.ctime && new Date(file.ctime * 1000) || null`. -/
def convertTime (t : TimeField) : JSValue :=
  let conj := if (rawTime t).truthy then newDate (timesThousand t) else rawTime t
  if conj.truthy then conj else .null

/-- Source lines 56-64, the entry built from one raw row. -/
def toEntry (b : Bridge) (file : RawFile) : Entry :=
  { ctime := convertTime file.ctime
    mtime := convertTime file.mtime
    name := file.name
    path := file.path
    size := file.size
    isFile := fun _ => decide (file.type = b.RNFSFileTypeRegular)
    isDirectory := fun _ => decide (file.type = b.RNFSFileTypeDirectory) }

/-- Source lines 54-66, `readDirGeneric(dirpath, command)`. -/
def readDirGeneric (b : Bridge) (dirpath : JSString)
    (command : JSString → Run (List RawFile)) : Run (List Entry) :=
  (command (normalizeFilePath dirpath)).andThen (fun files => .ok (files.map (toEntry b)))

/-- Source lines 106-108, `readDir(dirpath)`. -/
def readDir (b : Bridge) (dirpath : JSString) : Run (List Entry) :=
  readDirGeneric b dirpath (fun p => invoke "readDir" [.string p] (b.readDir p))

/-- Source lines 111-116, `readDirAssets(dirpath)`. -/
def readDirAssets (b : Bridge) (dirpath : JSString) : Run (List Entry) :=
  match b.readDirAssets with
  | none => throwNow (.error "readDirAssets is not available on this platform")
  | some f => readDirGeneric b dirpath (fun p => invoke "readDirAssets" [.string p] (f p))

/-- Source lines 119-124, `existsAssets(filepath)`. -/
def existsAssets (b : Bridge) (filepath : JSValue) : Run JSValue :=
  match b.existsAssets with
  | none => throwNow (.error "existsAssets is not available on this platform")
  | some f => invoke "existsAssets" [filepath] (f filepath)

/-- Source lines 127-132, `existsRes(filename)`. -/
def existsRes (b : Bridge) (filename : JSValue) : Run JSValue :=
  match b.existsRes with
  | none => throwNow (.error "existsRes is not available on this platform")
  | some f => invoke "existsRes" [filename] (f filename)

/-- Source lines 135-139, `readdir(dirpath)`. -/
def readdir (b : Bridge) (dirpath : JSString) : Run (List JSValue) :=
  (readDir b (normalizeFilePath dirpath)).andThen (fun files => .ok (files.map (·.name)))

/-- Source lines 163-165, `readFile(filepath, encodingOrOptions)`. -/
def readFile (b : Bridge) (filepath : JSString) (encodingOrOptions : JSValue) : Run JSString :=
  readFileGeneric filepath encodingOrOptions
    (fun p => invoke "readFile" [.string p] (b.readFile p))

/-- A parameter with a default value: the default replaces `undefined`. -/
def withDefault (arg dflt : JSValue) : JSValue :=
  match arg with
  | .undefined => dflt
  | v => v

/-- Source lines 171-185,
`read(filepath, length = 0, position = 0, encodingOrOptions)`. -/
def read (b : Bridge) (filepath : JSString) (length position encodingOrOptions : JSValue) :
    Run JSString :=
  let length := withDefault length (.number 0)
  let position := withDefault position (.number 0)
  let options := resolveOptions encodingOrOptions
  (invoke "read" [.string (normalizeFilePath filepath), length, position]
      (b.read (normalizeFilePath filepath) length position)).andThen
    (fun b64 => decode b64 (options.getProp "encoding"))

/-- Source lines 188-193, `readFileAssets(filepath, encodingOrOptions)`. -/
def readFileAssets (b : Bridge) (filepath : JSString) (encodingOrOptions : JSValue) :
    Run JSString :=
  match b.readFileAssets with
  | none => throwNow (.error "readFileAssets is not available on this platform")
  | some f =>
    readFileGeneric filepath encodingOrOptions
      (fun p => invoke "readFileAssets" [.string p] (f p))

/-- Source lines 196-201, `readFileRes(filename, encodingOrOptions)`. -/
def readFileRes (b : Bridge) (filename : JSString) (encodingOrOptions : JSValue) :
    Run JSString :=
  match b.readFileRes with
  | none => throwNow (.error "readFileRes is not available on this platform")
  | some f =>
    readFileGeneric filename encodingOrOptions
      (fun p => invoke "readFileRes" [.string p] (f p))

/-! ## Copying from assets and resources -/

/-- Source lines 208-213, `copyFileAssets(filepath, destPath)`. -/
def copyFileAssets (b : Bridge) (filepath destPath : JSString) : Run JSValue :=
  match b.copyFileAssets with
  | none => throwNow (.error "copyFileAssets is not available on this platform")
  | some f =>
    (invoke "copyFileAssets"
        [.string (normalizeFilePath filepath), .string (normalizeFilePath destPath)]
        (f (normalizeFilePath filepath) (normalizeFilePath destPath))).andThen
      (fun _ => .ok .undefined)

/-- Source lines 216-221, `copyFileRes(filename, destPath)`. -/
def copyFileRes (b : Bridge) (filename : JSValue) (destPath : JSString) : Run JSValue :=
  match b.copyFileRes with
  | none => throwNow (.error "copyFileRes is not available on this platform")
  | some f =>
    (invoke "copyFileRes" [filename, .string (normalizeFilePath destPath)]
        (f filename (normalizeFilePath destPath))).andThen
      (fun _ => .ok .undefined)

/-! ## Writing -/

/-- Source lines 240-259, `writeFile(filepath, contents, encodingOrOptions)`. -/
def writeFile (b : Bridge) (filepath contents : JSString) (encodingOrOptions : JSValue) :
    Run JSValue :=
  let options := resolveOptionsWriteFile encodingOrOptions
  match encode contents (options.getProp "encoding") with
  | .error e => throwNow e
  | .ok b64 =>
    (invoke "writeFile" [.string (normalizeFilePath filepath), .string b64, options]
        (b.writeFile (normalizeFilePath filepath) b64 options)).andThen
      (fun _ => .ok .undefined)

/-- Source lines 265-281, `appendFile(filepath, contents, encodingOrOptions)`. -/
def appendFile (b : Bridge) (filepath contents : JSString) (encodingOrOptions : JSValue) :
    Run JSValue :=
  let options := resolveOptions encodingOrOptions
  match encode contents (options.getProp "encoding") with
  | .error e => throwNow e
  | .ok b64 =>
    invoke "appendFile" [.string (normalizeFilePath filepath), .string b64]
      (b.appendFile (normalizeFilePath filepath) b64)

/-- Source lines 283-303,
`write(filepath, contents, position, encodingOrOptions)`. -/
def write (b : Bridge) (filepath contents : JSString) (position encodingOrOptions : JSValue) :
    Run JSValue :=
  let options := resolveOptions encodingOrOptions
  match encode contents (options.getProp "encoding") with
  | .error e => throwNow e
  | .ok b64 =>
    let position :=
      match position with
      | .undefined => .number (-1)
      | v => v
    (invoke "write" [.string (normalizeFilePath filepath), .string b64, position]
        (b.write (normalizeFilePath filepath) b64 position)).andThen
      (fun _ => .ok .undefined)

/-! ## `touch` -/

/-- The expression `value && value.getTime()`. -/
def andGetTime (value : JSValue) : JSValue :=
  if value.truthy then value.getTime else value

/-- Source lines 305-317, `touch(filepath, mtime, ctime)`; `isIOS` is the
module constant of line 11. -/
def touch (isIOS : Bool) (b : Bridge) (filepath : JSString) (mtime ctime : JSValue) :
    Run JSValue :=
  if ctime.truthy && !ctime.instanceofDate then
    throwNow (.error "touch: Invalid value for argument `ctime`")
  else if mtime.truthy && !mtime.instanceofDate then
    throwNow (.error "touch: Invalid value for argument `mtime`")
  else
    let ctimeTime := if isIOS then andGetTime ctime else .number 0
    invoke "touch" [.string (normalizeFilePath filepath), andGetTime mtime, ctimeTime]
      (b.touch (normalizeFilePath filepath) (andGetTime mtime) ctimeTime)

/-! ## The domains of the encodings -/

/-- Well-formed UTF-16: every code unit is below 0x10000 and every
surrogate is one half of a pair, a leading surrogate followed by a
trailing one. -/
def wellFormed : JSString → Bool
  | [] => true
  | c :: rest =>
    if isLeadSurrogate c then
      match rest with
      | [] => false
      | d :: rest' => isTrailSurrogate d && wellFormed rest'
    else !isTrailSurrogate c && decide (c < 0x10000) && wellFormed rest

/-- A binary string: every code unit is at most 0xFF. -/
def isBinaryString (s : JSString) : Bool := s.all (· ≤ 0xFF)

/-! ## Two concrete bridges -/

/-- The raw row of a regular file "a" in "/tmp", changed at epoch second
1700000000, without a creation time. -/
def sampleRow : RawFile :=
  { ctime := .absent
    mtime := .number 1700000000
    name := .string [97]
    path := .string [47, 116, 109, 112, 47, 97]
    size := .number 3
    type := .number 0 }

/-- A bridge in the style of the Android module (type codes 0 and 1, every
function present): the directory "/tmp" holds `sampleRow`, every other
directory is empty, reads return the base64 text "YQ==", and the other
promises resolve to `null`. -/
def androidBridge : Bridge :=
  { RNFSFileTypeRegular := .number 0
    RNFSFileTypeDirectory := .number 1
    readDir := fun p => if p = [47, 116, 109, 112] then .resolved [sampleRow] else .resolved []
    readDirAssets := some (fun _ => .resolved [sampleRow])
    existsAssets := some (fun _ => .resolved (.boolean true))
    existsRes := some (fun _ => .resolved (.boolean true))
    readFile := fun _ => .resolved [89, 81, 61, 61]
    read := fun _ _ _ => .resolved [89, 81, 61, 61]
    readFileAssets := some (fun _ => .resolved [89, 81, 61, 61])
    readFileRes := some (fun _ => .resolved [89, 81, 61, 61])
    copyFileAssets := some (fun _ _ => .resolved .null)
    copyFileRes := some (fun _ _ => .resolved .null)
    writeFile := fun _ _ _ => .resolved .null
    appendFile := fun _ _ => .resolved .null
    write := fun _ _ _ => .resolved .null
    touch := fun _ _ _ => .resolved .null }

/-- The same bridge without the seven Android-only functions. -/
def plainBridge : Bridge :=
  { androidBridge with
    readDirAssets := none
    existsAssets := none
    existsRes := none
    readFileAssets := none
    readFileRes := none
    copyFileAssets := none
    copyFileRes := none }

/-! ## Path normalisation -/

/-- C2: a path that begins with "file://" loses exactly those seven
code units (the remainder is returned whole, even when it begins with
"file://" again), and a path that does not begin with "file://" is returned
unchanged. -/
theorem normalizeFilePath_strips_once (p r : JSString) :
    (normalizeFilePath (filePrefix ++ r) = r ∧ filePrefix.length = 7) ∧
      (¬ filePrefix <+: p → normalizeFilePath p = p) := by
  refine ⟨⟨?_, rfl⟩, ?_⟩
  · simp [normalizeFilePath, filePrefix]
  · intro h
    have : filePrefix.isPrefixOf p = false := by
      cases hp : filePrefix.isPrefixOf p
      · rfl
      · exact absurd (List.isPrefixOf_iff_prefix.mp hp) h
    simp [normalizeFilePath, this]

/-- Witness of C2 on the doubly prefixed "file://file:///a" and on "/tmp". -/
theorem normalizeFilePath_strips_once_witness :
    (normalizeFilePath (filePrefix ++ [102, 105, 108, 101, 58, 47, 47, 47, 97])
        = [102, 105, 108, 101, 58, 47, 47, 47, 97] ∧ filePrefix.length = 7) ∧
      normalizeFilePath [47, 116, 109, 112] = [47, 116, 109, 112] :=
  ⟨(normalizeFilePath_strips_once [47, 116, 109, 112]
      [102, 105, 108, 101, 58, 47, 47, 47, 97]).1,
   (normalizeFilePath_strips_once [47, 116, 109, 112]
      [102, 105, 108, 101, 58, 47, 47, 47, 97]).2 (by decide)⟩

/-! ## Unrecognised encodings -/

theorem strictEqString_iff (v : JSValue) (lit : JSString) :
    v.strictEqString lit = true ↔ v = .string lit := by
  cases v <;> simp [JSValue.strictEqString]

theorem strictEqString_eq_false (v : JSValue) (lit : JSString) (h : v ≠ .string lit) :
    v.strictEqString lit = false := by
  cases hv : v.strictEqString lit
  · rfl
  · exact absurd ((strictEqString_iff v lit).mp hv) h

/-- C3, as the claim states it, fails: the object with the own property
`toString` set to 1 is an encoding value other than the three names, and its
interpolation in the message throws TypeError, so `encode` and `decode` fail
with that TypeError and not with the invalid-encoding error. -/
theorem encode_decode_unconvertible_encoding :
    encode [97] (.object [("toString", .number 1)]) = .error .typeError ∧
    decode [97] (.object [("toString", .number 1)]) = .error .typeError ∧
    encode [97] (.object [("toString", .number 1)])
      ≠ .error (.invalidEncoding (.object [("toString", .number 1)])) ∧
    decode [97] (.object [("toString", .number 1)])
      ≠ .error (.invalidEncoding (.object [("toString", .number 1)])) :=
  ⟨rfl, rfl, by simp [encode, JSValue.strictEqString, JSValue.hasStringConversion, List.lookup],
   by simp [decode, JSValue.strictEqString, JSValue.hasStringConversion, List.lookup]⟩

/-- C3, amended: with an encoding value other than the strings "utf8",
"ascii" and "base64" that has a string conversion, `encode` and `decode`
both throw the invalid-encoding error, for every content; with one whose
string conversion throws, both throw that TypeError; with each of the three
recognised encodings neither throws an invalid-encoding error. -/
theorem encode_decode_invalid_encoding (s : JSString) (encoding other : JSValue) :
    (encoding ≠ .string utf8 → encoding ≠ .string ascii → encoding ≠ .string base64 →
      encoding.hasStringConversion = true →
        encode s encoding = .error (.invalidEncoding encoding) ∧
        decode s encoding = .error (.invalidEncoding encoding)) ∧
    (encoding ≠ .string utf8 → encoding ≠ .string ascii → encoding ≠ .string base64 →
      encoding.hasStringConversion = false →
        encode s encoding = .error .typeError ∧
        decode s encoding = .error .typeError) ∧
    (encoding = .string utf8 ∨ encoding = .string ascii ∨ encoding = .string base64 →
        encode s encoding ≠ .error (.invalidEncoding other) ∧
        decode s encoding ≠ .error (.invalidEncoding other)) := by
  refine ⟨?_, ?_, ?_⟩
  · intro h1 h2 h3 h4
    simp [encode, decode, strictEqString_eq_false _ _ h1, strictEqString_eq_false _ _ h2,
      strictEqString_eq_false _ _ h3, h4]
  · intro h1 h2 h3 h4
    simp [encode, decode, strictEqString_eq_false _ _ h1, strictEqString_eq_false _ _ h2,
      strictEqString_eq_false _ _ h3, h4]
  · rintro (h | h | h) <;> subst h <;> constructor <;>
      simp only [encode, decode, JSValue.strictEqString, utf8, ascii, base64] <;>
      simp <;> (repeat' split) <;> simp

/-- Witness of C3, amended: the encodings "bogus" and `undefined` on the
content "a", the object whose own `toString` is 1, and the recognised
encoding "utf8". -/
theorem encode_decode_invalid_encoding_witness :
    (encode [97] (.string [98, 111, 103, 117, 115])
        = .error (.invalidEncoding (.string [98, 111, 103, 117, 115])) ∧
      decode [97] (.string [98, 111, 103, 117, 115])
        = .error (.invalidEncoding (.string [98, 111, 103, 117, 115]))) ∧
    (encode [97] .undefined = .error (.invalidEncoding .undefined) ∧
      decode [97] .undefined = .error (.invalidEncoding .undefined)) ∧
    (encode [97] (.object [("toString", .number 1)]) = .error .typeError ∧
      decode [97] (.object [("toString", .number 1)]) = .error .typeError) ∧
    (encode [97] (.string utf8) ≠ .error (.invalidEncoding .undefined) ∧
      decode [97] (.string utf8) ≠ .error (.invalidEncoding .undefined)) :=
  ⟨(encode_decode_invalid_encoding [97] (.string [98, 111, 103, 117, 115]) .undefined).1
      (by simp [utf8]) (by simp [ascii]) (by simp [base64]) rfl,
   (encode_decode_invalid_encoding [97] .undefined .undefined).1
      (by simp) (by simp) (by simp) rfl,
   (encode_decode_invalid_encoding [97] (.object [("toString", .number 1)]) .undefined).2.1
      (by simp) (by simp) (by simp) rfl,
   (encode_decode_invalid_encoding [97] (.string utf8) .undefined).2.2 (Or.inl rfl)⟩

/-! ## The availability guards -/

/-- C4: each of the seven guarded Android-only operations, called on a
bridge that lacks the function of that name, throws at once the `Error`
whose message is the operation name followed by " is not available on this
platform", whatever the arguments, and invokes no bridge function. -/
theorem guarded_operation_unavailable (b : Bridge) (path dest : JSString)
    (arg encodingOrOptions : JSValue) :
    (b.readDirAssets = none →
        (readDirAssets b path).calls = [] ∧
        (readDirAssets b path).outcome
          = .threw (.error "readDirAssets is not available on this platform")) ∧
    (b.existsAssets = none →
        (existsAssets b arg).calls = [] ∧
        (existsAssets b arg).outcome
          = .threw (.error "existsAssets is not available on this platform")) ∧
    (b.existsRes = none →
        (existsRes b arg).calls = [] ∧
        (existsRes b arg).outcome
          = .threw (.error "existsRes is not available on this platform")) ∧
    (b.readFileAssets = none →
        (readFileAssets b path encodingOrOptions).calls = [] ∧
        (readFileAssets b path encodingOrOptions).outcome
          = .threw (.error "readFileAssets is not available on this platform")) ∧
    (b.readFileRes = none →
        (readFileRes b path encodingOrOptions).calls = [] ∧
        (readFileRes b path encodingOrOptions).outcome
          = .threw (.error "readFileRes is not available on this platform")) ∧
    (b.copyFileAssets = none →
        (copyFileAssets b path dest).calls = [] ∧
        (copyFileAssets b path dest).outcome
          = .threw (.error "copyFileAssets is not available on this platform")) ∧
    (b.copyFileRes = none →
        (copyFileRes b arg dest).calls = [] ∧
        (copyFileRes b arg dest).outcome
          = .threw (.error "copyFileRes is not available on this platform")) := by
  refine ⟨?_, ?_, ?_, ?_, ?_, ?_, ?_⟩ <;> intro h
  · simp [readDirAssets, h, throwNow]
  · simp [existsAssets, h, throwNow]
  · simp [existsRes, h, throwNow]
  · simp [readFileAssets, h, throwNow]
  · simp [readFileRes, h, throwNow]
  · simp [copyFileAssets, h, throwNow]
  · simp [copyFileRes, h, throwNow]

/-- Witness of C4: the seven operations on the bridge without the
Android-only functions. -/
theorem guarded_operation_unavailable_witness :
    ((readDirAssets plainBridge [47, 97]).calls = [] ∧
      (readDirAssets plainBridge [47, 97]).outcome
        = .threw (.error "readDirAssets is not available on this platform")) ∧
    ((existsAssets plainBridge (.string [97])).calls = [] ∧
      (existsAssets plainBridge (.string [97])).outcome
        = .threw (.error "existsAssets is not available on this platform")) ∧
    ((existsRes plainBridge (.string [97])).calls = [] ∧
      (existsRes plainBridge (.string [97])).outcome
        = .threw (.error "existsRes is not available on this platform")) ∧
    ((readFileAssets plainBridge [47, 97] .undefined).calls = [] ∧
      (readFileAssets plainBridge [47, 97] .undefined).outcome
        = .threw (.error "readFileAssets is not available on this platform")) ∧
    ((readFileRes plainBridge [47, 97] .undefined).calls = [] ∧
      (readFileRes plainBridge [47, 97] .undefined).outcome
        = .threw (.error "readFileRes is not available on this platform")) ∧
    ((copyFileAssets plainBridge [47, 97] [47, 98]).calls = [] ∧
      (copyFileAssets plainBridge [47, 97] [47, 98]).outcome
        = .threw (.error "copyFileAssets is not available on this platform")) ∧
    ((copyFileRes plainBridge (.string [97]) [47, 98]).calls = [] ∧
      (copyFileRes plainBridge (.string [97]) [47, 98]).outcome
        = .threw (.error "copyFileRes is not available on this platform")) :=
  ⟨(guarded_operation_unavailable plainBridge [47, 97] [47, 98] (.string [97])
      .undefined).1 rfl,
   (guarded_operation_unavailable plainBridge [47, 97] [47, 98] (.string [97])
      .undefined).2.1 rfl,
   (guarded_operation_unavailable plainBridge [47, 97] [47, 98] (.string [97])
      .undefined).2.2.1 rfl,
   (guarded_operation_unavailable plainBridge [47, 97] [47, 98] (.string [97])
      .undefined).2.2.2.1 rfl,
   (guarded_operation_unavailable plainBridge [47, 97] [47, 98] (.string [97])
      .undefined).2.2.2.2.1 rfl,
   (guarded_operation_unavailable plainBridge [47, 97] [47, 98] (.string [97])
      .undefined).2.2.2.2.2.1 rfl,
   (guarded_operation_unavailable plainBridge [47, 97] [47, 98] (.string [97])
      .undefined).2.2.2.2.2.2 rfl⟩

/-! ## `touch` -/

/-- C5, as the claim states it, fails: the number 0 given as `mtime` is a
supplied value that is not a date, yet `touch` does not throw and invokes
the bridge with it. -/
theorem touch_zero_mtime_reaches_bridge :
    (JSValue.number 0).instanceofDate = false ∧
    (touch false plainBridge [47, 97] (.number 0) .undefined).calls
        = [{ name := "touch", args := [.string [47, 97], .number 0, .number 0] }] ∧
    (touch false plainBridge [47, 97] (.number 0) .undefined).outcome = .resolved .null :=
  ⟨rfl, rfl, rfl⟩

/-- C5, amended: when `ctime` or `mtime` is truthy and not a Date, `touch`
throws the invalid-argument `Error` (for `ctime` first) before any bridge
invocation; when each of them is falsy or a Date, `touch` does not throw and
invokes the bridge function `touch`, exactly once. -/
theorem touch_invalid_argument (isIOS : Bool) (b : Bridge) (path : JSString)
    (mtime ctime : JSValue) :
    (ctime.truthy = true ∧ ctime.instanceofDate = false →
        (touch isIOS b path mtime ctime).calls = [] ∧
        (touch isIOS b path mtime ctime).outcome
          = .threw (.error "touch: Invalid value for argument `ctime`")) ∧
    ((ctime.truthy = false ∨ ctime.instanceofDate = true) ∧
      mtime.truthy = true ∧ mtime.instanceofDate = false →
        (touch isIOS b path mtime ctime).calls = [] ∧
        (touch isIOS b path mtime ctime).outcome
          = .threw (.error "touch: Invalid value for argument `mtime`")) ∧
    ((ctime.truthy = false ∨ ctime.instanceofDate = true) ∧
      (mtime.truthy = false ∨ mtime.instanceofDate = true) →
        (touch isIOS b path mtime ctime).calls.map (·.name) = ["touch"] ∧
        (touch isIOS b path mtime ctime).outcome.isThrow = false) := by
  refine ⟨?_, ?_, ?_⟩
  · rintro ⟨h1, h2⟩
    simp [touch, h1, h2, throwNow]
  · rintro ⟨hc, h1, h2⟩
    have hc2 : (ctime.truthy && !ctime.instanceofDate) = false := by
      rcases hc with hc | hc <;> simp [hc]
    simp [touch, hc2, h1, h2, throwNow]
  · rintro ⟨hc, hm⟩
    have hc2 : (ctime.truthy && !ctime.instanceofDate) = false := by
      rcases hc with hc | hc <;> simp [hc]
    have hm2 : (mtime.truthy && !mtime.instanceofDate) = false := by
      rcases hm with hm | hm <;> simp [hm]
    refine ⟨by simp [touch, hc2, hm2, invoke], ?_⟩
    simp only [touch, hc2, hm2, invoke]
    cases b.touch (normalizeFilePath path) (andGetTime mtime)
      (if isIOS = true then andGetTime ctime else JSValue.number 0) <;> simp [Outcome.isThrow]

/-- Witness of C5, amended: the string "x" as `ctime` is refused, the string
"not-a-date" as `mtime` is refused, and a Date `mtime` is accepted. -/
theorem touch_invalid_argument_witness :
    ((touch true plainBridge [47, 97] .undefined (.string [120])).calls = [] ∧
      (touch true plainBridge [47, 97] .undefined (.string [120])).outcome
        = .threw (.error "touch: Invalid value for argument `ctime`")) ∧
    ((touch true plainBridge [47, 97]
        (.string [110, 111, 116, 45, 97, 45, 100, 97, 116, 101]) .undefined).calls = [] ∧
      (touch true plainBridge [47, 97]
        (.string [110, 111, 116, 45, 97, 45, 100, 97, 116, 101]) .undefined).outcome
        = .threw (.error "touch: Invalid value for argument `mtime`")) ∧
    ((touch true plainBridge [47, 97] (.date (some 5)) .undefined).calls.map (·.name)
        = ["touch"] ∧
      (touch true plainBridge [47, 97] (.date (some 5)) .undefined).outcome.isThrow = false) :=
  ⟨(touch_invalid_argument true plainBridge [47, 97] .undefined (.string [120])).1 ⟨rfl, rfl⟩,
   (touch_invalid_argument true plainBridge [47, 97]
      (.string [110, 111, 116, 45, 97, 45, 100, 97, 116, 101]) .undefined).2.1
      ⟨Or.inl rfl, rfl, rfl⟩,
   (touch_invalid_argument true plainBridge [47, 97] (.date (some 5)) .undefined).2.2
      ⟨Or.inl rfl, Or.inr rfl⟩⟩

/-! ## Directory listings -/

/-- The entries of `readDir` are the rows of the bridge, each through
`toEntry`. -/
theorem readDir_outcome (b : Bridge) (p : JSString) (rows : List RawFile)
    (h : b.readDir (normalizeFilePath p) = .resolved rows) :
    (readDir b p).outcome = .resolved (rows.map (toEntry b)) := by
  simp [readDir, readDirGeneric, Run.andThen, invoke, h]

/-- The entries of `readDirAssets` are the rows of the bridge, each through
`toEntry`. -/
theorem readDirAssets_outcome (b : Bridge) (p : JSString) (rows : List RawFile)
    (f : JSString → Settled (List RawFile)) (hf : b.readDirAssets = some f)
    (h : f (normalizeFilePath p) = .resolved rows) :
    (readDirAssets b p).outcome = .resolved (rows.map (toEntry b)) := by
  simp [readDirAssets, hf, readDirGeneric, Run.andThen, invoke, h]

theorem forall₂_map_of_forall {α β : Type} (R : α → β → Prop) (f : α → β) (l : List α)
    (h : ∀ a, R a (f a)) : List.Forall₂ R l (l.map f) := by
  induction l with
  | nil => exact List.Forall₂.nil
  | cons a l ih => exact List.Forall₂.cons (h a) ih

/-- C8: the entries `readDir` and `readDirAssets` produce correspond one to
one, in order, to the raw rows the bridge returned; each entry carries the
name, path and size of its row unchanged; for a row whose type is the
regular-file code of the bridge `isFile()` is true and `isDirectory()` is
false, and for a row whose type is its directory code `isDirectory()` is
true and `isFile()` is false (the two codes of the bridge being distinct). -/
theorem readDir_entry_kinds (b : Bridge) (p : JSString) (rows : List RawFile)
    (hcodes : b.RNFSFileTypeRegular ≠ b.RNFSFileTypeDirectory) :
    (b.readDir (normalizeFilePath p) = .resolved rows →
      ∃ entries, (readDir b p).outcome = .resolved entries ∧
        List.Forall₂ (fun row e =>
          e.name = row.name ∧ e.path = row.path ∧ e.size = row.size ∧
          (row.type = b.RNFSFileTypeRegular → e.isFile () = true ∧ e.isDirectory () = false) ∧
          (row.type = b.RNFSFileTypeDirectory → e.isDirectory () = true ∧ e.isFile () = false))
          rows entries) ∧
    (∀ f, b.readDirAssets = some f → f (normalizeFilePath p) = .resolved rows →
      ∃ entries, (readDirAssets b p).outcome = .resolved entries ∧
        List.Forall₂ (fun row e =>
          e.name = row.name ∧ e.path = row.path ∧ e.size = row.size ∧
          (row.type = b.RNFSFileTypeRegular → e.isFile () = true ∧ e.isDirectory () = false) ∧
          (row.type = b.RNFSFileTypeDirectory → e.isDirectory () = true ∧ e.isFile () = false))
          rows entries) := by
  have key : ∀ row : RawFile,
      (toEntry b row).name = row.name ∧ (toEntry b row).path = row.path ∧
      (toEntry b row).size = row.size ∧
      (row.type = b.RNFSFileTypeRegular →
        (toEntry b row).isFile () = true ∧ (toEntry b row).isDirectory () = false) ∧
      (row.type = b.RNFSFileTypeDirectory →
        (toEntry b row).isDirectory () = true ∧ (toEntry b row).isFile () = false) := by
    intro row
    refine ⟨rfl, rfl, rfl, ?_, ?_⟩
    · intro h
      simp [toEntry, h, hcodes]
    · intro h
      simp [toEntry, h, Ne.symm hcodes]
  constructor
  · intro h
    exact ⟨_, readDir_outcome b p rows h, forall₂_map_of_forall _ _ _ key⟩
  · intro f hf h
    exact ⟨_, readDirAssets_outcome b p rows f hf h, forall₂_map_of_forall _ _ _ key⟩

/-- Witness of C8: the listing of "file:///tmp" by the Android-style bridge,
through `readDir` and through `readDirAssets`. -/
theorem readDir_entry_kinds_witness :
    (∃ entries, (readDir androidBridge (filePrefix ++ [47, 116, 109, 112])).outcome
        = .resolved entries ∧
      List.Forall₂ (fun row e =>
        e.name = row.name ∧ e.path = row.path ∧ e.size = row.size ∧
        (row.type = androidBridge.RNFSFileTypeRegular →
          e.isFile () = true ∧ e.isDirectory () = false) ∧
        (row.type = androidBridge.RNFSFileTypeDirectory →
          e.isDirectory () = true ∧ e.isFile () = false))
        [sampleRow] entries) ∧
    (∃ entries, (readDirAssets androidBridge (filePrefix ++ [47, 116, 109, 112])).outcome
        = .resolved entries ∧
      List.Forall₂ (fun row e =>
        e.name = row.name ∧ e.path = row.path ∧ e.size = row.size ∧
        (row.type = androidBridge.RNFSFileTypeRegular →
          e.isFile () = true ∧ e.isDirectory () = false) ∧
        (row.type = androidBridge.RNFSFileTypeDirectory →
          e.isDirectory () = true ∧ e.isFile () = false))
        [sampleRow] entries) :=
  ⟨(readDir_entry_kinds androidBridge (filePrefix ++ [47, 116, 109, 112]) [sampleRow]
      (by decide)).1 rfl,
   (readDir_entry_kinds androidBridge (filePrefix ++ [47, 116, 109, 112]) [sampleRow]
      (by decide)).2 _ rfl rfl⟩

/-- C9, as the claim states it, fails: for the non-zero number of epoch
seconds 10000000000000 the produced `ctime` is not the date at epoch
milliseconds 10000000000000000 but an Invalid Date, that value being beyond
the range of a JavaScript time value. -/
theorem convertTime_beyond_range :
    (toEntry androidBridge { sampleRow with ctime := .number 10000000000000 }).ctime
        = .date none ∧
    (toEntry androidBridge { sampleRow with ctime := .number 10000000000000 }).ctime
        ≠ .date (some (10000000000000 * 1000)) :=
  ⟨rfl, by simp [toEntry, convertTime, rawTime, JSValue.truthy, newDate, timesThousand,
    timeClip]⟩

/-- Within the range of time values, a non-zero integer number of seconds
becomes the date a thousand times later in milliseconds. -/
theorem convertTime_number (t : Int) (h0 : t ≠ 0)
    (hr : (t * 1000).natAbs ≤ 8640000000000000) :
    convertTime (.number t) = .date (some (t * 1000)) := by
  simp [convertTime, rawTime, JSValue.truthy, h0, newDate, timesThousand, timeClip, hr]

/-- A field that is NaN is falsy and becomes null, like 0 and an absent
field. -/
theorem convertTime_falsy :
    convertTime .nan = .null ∧ convertTime (.number 0) = .null ∧ convertTime .absent = .null :=
  ⟨rfl, rfl, rfl⟩

/-- C9, amended: in the entries of `readDir` and `readDirAssets`, one per
raw row and in order, a `ctime` or `mtime` field that is a non-zero integer
number of epoch seconds t within the range of JavaScript dates (the
magnitude of t * 1000 at most 8.64e15) becomes the date at epoch
milliseconds t * 1000, and a field that is 0 or absent becomes null. -/
theorem readDir_entry_times (b : Bridge) (p : JSString) (rows : List RawFile) :
    (b.readDir (normalizeFilePath p) = .resolved rows →
      ∃ entries, (readDir b p).outcome = .resolved entries ∧
        List.Forall₂ (fun row e =>
          (∀ t : Int, t ≠ 0 → (t * 1000).natAbs ≤ 8640000000000000 →
            (row.ctime = .number t → e.ctime = .date (some (t * 1000))) ∧
            (row.mtime = .number t → e.mtime = .date (some (t * 1000)))) ∧
          (row.ctime = .number 0 ∨ row.ctime = .absent → e.ctime = .null) ∧
          (row.mtime = .number 0 ∨ row.mtime = .absent → e.mtime = .null))
          rows entries) ∧
    (∀ f, b.readDirAssets = some f → f (normalizeFilePath p) = .resolved rows →
      ∃ entries, (readDirAssets b p).outcome = .resolved entries ∧
        List.Forall₂ (fun row e =>
          (∀ t : Int, t ≠ 0 → (t * 1000).natAbs ≤ 8640000000000000 →
            (row.ctime = .number t → e.ctime = .date (some (t * 1000))) ∧
            (row.mtime = .number t → e.mtime = .date (some (t * 1000)))) ∧
          (row.ctime = .number 0 ∨ row.ctime = .absent → e.ctime = .null) ∧
          (row.mtime = .number 0 ∨ row.mtime = .absent → e.mtime = .null))
          rows entries) := by
  have key : ∀ row : RawFile,
      (∀ t : Int, t ≠ 0 → (t * 1000).natAbs ≤ 8640000000000000 →
        (row.ctime = .number t → (toEntry b row).ctime = .date (some (t * 1000))) ∧
        (row.mtime = .number t → (toEntry b row).mtime = .date (some (t * 1000)))) ∧
      (row.ctime = .number 0 ∨ row.ctime = .absent → (toEntry b row).ctime = .null) ∧
      (row.mtime = .number 0 ∨ row.mtime = .absent → (toEntry b row).mtime = .null) := by
    intro row
    refine ⟨?_, ?_, ?_⟩
    · intro t h0 hr
      constructor <;> intro h <;> simp only [toEntry, h] <;> exact convertTime_number t h0 hr
    · rintro (h | h) <;> simp [toEntry, h, convertTime, rawTime, JSValue.truthy]
    · rintro (h | h) <;> simp [toEntry, h, convertTime, rawTime, JSValue.truthy]
  constructor
  · intro h
    exact ⟨_, readDir_outcome b p rows h, forall₂_map_of_forall _ _ _ key⟩
  · intro f hf h
    exact ⟨_, readDirAssets_outcome b p rows f hf h, forall₂_map_of_forall _ _ _ key⟩

/-- Witness of C9, amended: the listing of "/tmp" by the Android-style
bridge, whose row has `mtime` 1700000000 and no `ctime`, through `readDir`
and through `readDirAssets`. -/
theorem readDir_entry_times_witness :
    (∃ entries, (readDir androidBridge [47, 116, 109, 112]).outcome = .resolved entries ∧
      List.Forall₂ (fun row e =>
          (∀ t : Int, t ≠ 0 → (t * 1000).natAbs ≤ 8640000000000000 →
            (row.ctime = .number t → e.ctime = .date (some (t * 1000))) ∧
            (row.mtime = .number t → e.mtime = .date (some (t * 1000)))) ∧
          (row.ctime = .number 0 ∨ row.ctime = .absent → e.ctime = .null) ∧
          (row.mtime = .number 0 ∨ row.mtime = .absent → e.mtime = .null))
          [sampleRow] entries) ∧
    (∃ entries, (readDirAssets androidBridge [47, 116, 109, 112]).outcome
        = .resolved entries ∧
      List.Forall₂ (fun row e =>
          (∀ t : Int, t ≠ 0 → (t * 1000).natAbs ≤ 8640000000000000 →
            (row.ctime = .number t → e.ctime = .date (some (t * 1000))) ∧
            (row.mtime = .number t → e.mtime = .date (some (t * 1000)))) ∧
          (row.ctime = .number 0 ∨ row.ctime = .absent → e.ctime = .null) ∧
          (row.mtime = .number 0 ∨ row.mtime = .absent → e.mtime = .null))
          [sampleRow] entries) :=
  ⟨(readDir_entry_times androidBridge [47, 116, 109, 112] [sampleRow]).1 rfl,
   (readDir_entry_times androidBridge [47, 116, 109, 112] [sampleRow]).2 _ rfl rfl⟩

/-- The sample row, evaluated: `mtime` 1700000000 becomes the date at
1700000000000 milliseconds, the absent `ctime` and a `ctime` of 0 become
null, and the type code 0 makes a file that is not a directory. -/
theorem sampleRow_times :
    (toEntry androidBridge sampleRow).mtime = .date (some 1700000000000) ∧
    (toEntry androidBridge sampleRow).ctime = .null ∧
    (toEntry androidBridge { sampleRow with ctime := .number 0 }).ctime = .null ∧
    (toEntry androidBridge sampleRow).isFile () = true ∧
    (toEntry androidBridge sampleRow).isDirectory () = false :=
  ⟨rfl, rfl, rfl, rfl, rfl⟩

/-- C6: `readdir` and `readDir` diverge on the doubly prefixed path
"file://file:///tmp". `readDir` strips one prefix and lists "file:///tmp"
(empty in this bridge); `readdir` strips a prefix itself before delegating
to `readDir`, which strips the second, so it lists "/tmp" and returns the
name "a", which is not among the names of the entries of `readDir`. -/
theorem readdir_double_strip :
    (readDir androidBridge (filePrefix ++ filePrefix ++ [47, 116, 109, 112])).outcome
        = .resolved [] ∧
    (readDir androidBridge (filePrefix ++ filePrefix ++ [47, 116, 109, 112])).calls
        = [{ name := "readDir", args := [.string (filePrefix ++ [47, 116, 109, 112])] }] ∧
    (readdir androidBridge (filePrefix ++ filePrefix ++ [47, 116, 109, 112])).outcome
        = .resolved [.string [97]] ∧
    (readdir androidBridge (filePrefix ++ filePrefix ++ [47, 116, 109, 112])).calls
        = [{ name := "readDir", args := [.string [47, 116, 109, 112]] }] :=
  ⟨rfl, rfl, rfl, rfl⟩

/-- On a path whose normal form no longer begins with "file://", `readdir`
is `readDir` followed by the projection on the names. -/
theorem readdir_names_of_readDir (b : Bridge) (p : JSString)
    (h : normalizeFilePath (normalizeFilePath p) = normalizeFilePath p) :
    readdir b p = (readDir b p).andThen (fun files => .ok (files.map (·.name))) := by
  simp [readdir, readDir, readDirGeneric, h]

/-- The singly prefixed path "file:///tmp" is such a path. -/
theorem readdir_names_of_readDir_single :
    readdir androidBridge (filePrefix ++ [47, 116, 109, 112])
      = (readDir androidBridge (filePrefix ++ [47, 116, 109, 112])).andThen
          (fun files => .ok (files.map (·.name))) :=
  readdir_names_of_readDir androidBridge (filePrefix ++ [47, 116, 109, 112]) rfl

/-! ## The encoding argument -/

/-- The encoding that `readFile`, `read`, `appendFile` and `write` use: a
non-empty bare name is used as it is, the omitted argument gives "utf8", and
an options record gives its `encoding` property, which is `undefined` when
the record has none. -/
theorem resolveOptions_encoding (name : JSString) (fields : List (String × JSValue))
    (hname : name ≠ []) :
    (resolveOptions (.string name)).getProp "encoding" = .string name ∧
    (resolveOptions .undefined).getProp "encoding" = .string utf8 ∧
    (resolveOptions (.object fields)).getProp "encoding"
      = (fields.lookup "encoding").getD .undefined := by
  refine ⟨?_, rfl, rfl⟩
  cases name with
  | nil => exact absurd rfl hname
  | cons c cs => rfl

/-- The encoding that `writeFile` uses: as above, except that an options
record without an `encoding` property gives "utf8". -/
theorem resolveOptionsWriteFile_encoding (name : JSString)
    (fields : List (String × JSValue)) (hname : name ≠ []) :
    (resolveOptionsWriteFile (.string name)).getProp "encoding" = .string name ∧
    (resolveOptionsWriteFile .undefined).getProp "encoding" = .string utf8 ∧
    (resolveOptionsWriteFile (.object fields)).getProp "encoding"
      = (fields.lookup "encoding").getD (.string utf8) := by
  refine ⟨?_, rfl, ?_⟩
  · cases name with
    | nil => exact absurd rfl hname
    | cons c cs => rfl
  · simp only [resolveOptionsWriteFile, JSValue.truthy, JSValue.typeof, JSValue.getProp,
      JSValue.ownFields, defaultOptions]
    simp only [if_true]
    induction fields with
    | nil => rfl
    | cons kv rest ih =>
      obtain ⟨k, v⟩ := kv
      by_cases hk : "encoding" = k
      · subst hk
        simp [List.lookup]
      · have : ("encoding" == k) = false := by simpa using hk
        simpa [List.lookup, this] using ih

/-- C7: an options record without an `encoding` property, here the empty
record. `writeFile` spreads the record over the default options and encodes
the content "a" as utf8; `readFile`, `read`, `appendFile` and `write`
replace the default options by the record, read `undefined` as the encoding
and fail with the invalid-encoding error instead of using utf8. -/
theorem options_record_without_encoding :
    (writeFile androidBridge [47, 97] [97] (.object [])).calls
        = [{ name := "writeFile"
             args := [.string [47, 97], .string [89, 81, 61, 61],
                      .object [("encoding", .string utf8)]] }] ∧
    (readFile androidBridge [47, 97] (.object [])).outcome
        = .rejected (.invalidEncoding .undefined) ∧
    (read androidBridge [47, 97] .undefined .undefined (.object [])).outcome
        = .rejected (.invalidEncoding .undefined) ∧
    (appendFile androidBridge [47, 97] [97] (.object [])).outcome
        = .threw (.invalidEncoding .undefined) ∧
    (write androidBridge [47, 97] [97] .undefined (.object [])).outcome
        = .threw (.invalidEncoding .undefined) ∧
    (readFile androidBridge [47, 97] .undefined).outcome = .resolved [97] :=
  ⟨rfl, rfl, rfl, rfl, rfl, rfl⟩

/-! ## `write` -/

/-- C10, as the claim states it, fails: with the recognised encoding
"ascii" and the content made of the single code unit 0x20AC (the euro sign),
`encode` throws, so `write` throws before reaching the bridge and the
function `write` of the bridge is not invoked. -/
theorem write_unencodable_content :
    (write androidBridge [47, 97] [0x20AC] .undefined (.string ascii)).calls = [] ∧
    (write androidBridge [47, 97] [0x20AC] .undefined (.string ascii)).outcome
        = .threw .invalidCharacterError :=
  ⟨rfl, rfl⟩

/-- C10, amended: for every path and position, and every content that
`encode` can encode in the recognised encoding given by name, `write`
invokes the bridge exactly once, its function `write`, on the normalised
path, the encoded content, and the position -1 when the position is
`undefined`, the given position unchanged otherwise. -/
theorem write_forwards_position (b : Bridge) (path contents enc b64 : JSString)
    (position : JSValue)
    (henc : enc = utf8 ∨ enc = ascii ∨ enc = base64)
    (hb64 : encode contents (.string enc) = .ok b64) :
    (position = .undefined →
      (write b path contents position (.string enc)).calls
        = [{ name := "write"
             args := [.string (normalizeFilePath path), .string b64, .number (-1)] }]) ∧
    (position ≠ .undefined →
      (write b path contents position (.string enc)).calls
        = [{ name := "write"
             args := [.string (normalizeFilePath path), .string b64, position] }]) := by
  have hres : (resolveOptions (.string enc)).getProp "encoding" = .string enc := by
    rcases henc with h | h | h <;> subst h <;> rfl
  constructor
  · intro hp
    subst hp
    simp [write, hres, hb64, Run.andThen, invoke]
  · intro hp
    cases position <;> first | exact absurd rfl hp | simp [write, hres, hb64, Run.andThen, invoke]

/-- Witness of C10, amended: the content "data" in utf8 (base64 text
"ZGF0YQ=="), without a position and with the position 4. -/
theorem write_forwards_position_witness :
    (write androidBridge (filePrefix ++ [47, 97]) [100, 97, 116, 97] .undefined
        (.string utf8)).calls
        = [{ name := "write"
             args := [.string (normalizeFilePath (filePrefix ++ [47, 97])),
                      .string [90, 71, 70, 48, 89, 81, 61, 61], .number (-1)] }] ∧
    (write androidBridge (filePrefix ++ [47, 97]) [100, 97, 116, 97] (.number 4)
        (.string utf8)).calls
        = [{ name := "write"
             args := [.string (normalizeFilePath (filePrefix ++ [47, 97])),
                      .string [90, 71, 70, 48, 89, 81, 61, 61], .number 4] }] :=
  ⟨(write_forwards_position androidBridge (filePrefix ++ [47, 97]) [100, 97, 116, 97] utf8
      [90, 71, 70, 48, 89, 81, 61, 61] .undefined (Or.inl rfl) rfl).1 rfl,
   (write_forwards_position androidBridge (filePrefix ++ [47, 97]) [100, 97, 116, 97] utf8
      [90, 71, 70, 48, 89, 81, 61, 61] (.number 4) (Or.inl rfl) rfl).2 (by simp)⟩

/-! ## Transcoding: `atob` undoes `btoa` -/

theorem b64Val_b64Char : ∀ v < 64, b64Val (b64Char v) = some v := by decide

theorem b64Char_not_whitespace : ∀ v < 64, isAsciiWhitespace (b64Char v) = false := by decide

theorem b64Char_ne_pad (v : Nat) : b64Char v ≠ 61 := by
  unfold b64Char
  split_ifs <;> omega

theorem toSextets_lt (bytes : List Nat) (h : ∀ x ∈ bytes, x ≤ 255) :
    ∀ v ∈ toSextets bytes, v < 64 := by
  induction bytes using toSextets.induct with
  | case1 => simp [toSextets]
  | case2 a =>
    have ha := h a (by simp)
    simp only [toSextets, List.mem_cons, List.mem_singleton, List.not_mem_nil, or_false]
    rintro v (rfl | rfl) <;> omega
  | case3 a b =>
    have ha := h a (by simp)
    have hb := h b (by simp)
    simp only [toSextets, List.mem_cons, List.mem_singleton, List.not_mem_nil, or_false]
    rintro v (rfl | rfl | rfl) <;> omega
  | case4 a b c rest ih =>
    have ha := h a (by simp)
    have hb := h b (by simp)
    have hc := h c (by simp)
    have ih := ih (fun x hx => h x (by simp [hx]))
    simp only [toSextets, List.mem_cons]
    rintro v (rfl | rfl | rfl | rfl | hv)
    · omega
    · omega
    · omega
    · omega
    · exact ih v hv

/-- Regrouping the 6-bit groups of a byte sequence gives the bytes back. -/
theorem decodeSextets_toSextets (bytes : List Nat) (h : ∀ x ∈ bytes, x ≤ 255) :
    decodeSextets (toSextets bytes) = bytes := by
  induction bytes using toSextets.induct with
  | case1 => simp [toSextets, decodeSextets]
  | case2 a =>
    have ha := h a (by simp)
    simp only [toSextets, decodeSextets, List.cons.injEq, and_true]
    omega
  | case3 a b =>
    have ha := h a (by simp)
    have hb := h b (by simp)
    simp only [toSextets, decodeSextets, List.cons.injEq, and_true]
    omega
  | case4 a b c rest ih =>
    have ha := h a (by simp)
    have hb := h b (by simp)
    have hc := h c (by simp)
    have ih := ih (fun x hx => h x (by simp [hx]))
    simp only [toSextets, decodeSextets, List.cons.injEq, ih, and_true]
    omega

theorem toSextets_length (bytes : List Nat) :
    (toSextets bytes).length
      = 4 * (bytes.length / 3) + (if bytes.length % 3 = 0 then 0 else bytes.length % 3 + 1) := by
  induction bytes using toSextets.induct with
  | case1 => simp [toSextets]
  | case2 a => simp [toSextets]
  | case3 a b => simp [toSextets]
  | case4 a b c rest ih =>
    simp only [toSextets, List.length_cons, ih]
    split_ifs <;> omega

theorem mapAll_b64Val_map_b64Char (vals : List Nat) (h : ∀ v ∈ vals, v < 64) :
    mapAll b64Val (vals.map b64Char) = some vals := by
  induction vals with
  | nil => rfl
  | cons v vs ih =>
    have hv := b64Val_b64Char v (h v (by simp))
    have ih := ih (fun x hx => h x (by simp [hx]))
    simp [mapAll, hv, ih]

/-- Stripping removes the padding of an encoded text, all of it and nothing
else. -/
theorem stripPadding_padded (body : JSString) (k : Nat) (hk : k ≤ 2)
    (hbody : ∀ x ∈ body, x ≠ 61) :
    stripPadding (body ++ List.replicate k 61) = body := by
  have hlast : body.getLast? ≠ some 61 := fun hl =>
    hbody 61 (List.mem_of_getLast?_eq_some hl) rfl
  have h1 : (body ++ [61]).getLast? = some 61 := List.getLast?_concat body
  have h2 : ((body ++ [61]) ++ [61]).getLast? = some 61 := List.getLast?_concat _
  have h3 : ((body ++ [61]) ++ [61]).dropLast = body ++ [61] := List.dropLast_concat
  have h4 : (body ++ [61]).dropLast = body := List.dropLast_concat
  interval_cases k
  · simp [stripPadding, hlast]
  · simp only [List.replicate]
    simp [stripPadding, h1, h4, hlast]
  · have : body ++ List.replicate 2 61 = (body ++ [61]) ++ [61] := by simp [List.replicate]
    rw [this]
    simp only [stripPadding, h2, h3, h1, h4, if_true]

/-- On a binary string `btoa` succeeds, and `atob` gives the string back. -/
theorem atob_btoa (bytes : JSString) (h : ∀ x ∈ bytes, x ≤ 255) :
    btoa bytes = some (base64Encode bytes) ∧ atob (base64Encode bytes) = some bytes := by
  constructor
  · have : bytes.all (· ≤ 0xFF) = true := by simpa using h
    simp [btoa, this]
  · have hlt := toSextets_lt bytes h
    have hbody : ∀ x ∈ (toSextets bytes).map b64Char, x ≠ 61 := by
      intro x hx
      obtain ⟨v, _, rfl⟩ := List.mem_map.mp hx
      exact b64Char_ne_pad v
    have hfilter : (base64Encode bytes).filter (fun c => !isAsciiWhitespace c)
        = base64Encode bytes := by
      rw [List.filter_eq_self]
      intro x hx
      simp only [base64Encode, List.mem_append, List.mem_map, List.mem_replicate] at hx
      rcases hx with ⟨v, hv, rfl⟩ | ⟨_, rfl⟩
      · simp [b64Char_not_whitespace v (hlt v hv)]
      · rfl
    have hlen := toSextets_length bytes
    have hlen4 : (base64Encode bytes).length % 4 = 0 := by
      simp only [base64Encode, List.length_append, List.length_map, List.length_replicate, hlen]
      split_ifs <;> omega
    have hstrip : stripPadding (base64Encode bytes) = (toSextets bytes).map b64Char :=
      stripPadding_padded _ _ (by omega) hbody
    have hbodylen : ((toSextets bytes).map b64Char).length % 4 ≠ 1 := by
      simp only [List.length_map, hlen]
      split_ifs <;> omega
    simp only [atob, hfilter, hlen4, if_true, hstrip, hbodylen, if_false,
      mapAll_b64Val_map_b64Char _ hlt, Option.map_some']
    rw [decodeSextets_toSextets bytes h]

/-! ## Transcoding: `unescape` undoes the escapes of `encodeURIComponent` -/

theorem hexVal_hexChar : ∀ d < 16, hexVal (hexChar d) = some d := by decide

theorem hexChar_ne_u : ∀ d < 16, hexChar d ≠ 117 := by decide

theorem parseHexOctet_hex (b : Nat) (hb : b < 256) (t : JSString) :
    parseHexOctet (hexChar (b / 16) :: hexChar (b % 16) :: t) = some b := by
  have h1 := hexVal_hexChar (b / 16) (by omega)
  have h2 := hexVal_hexChar (b % 16) (by omega)
  simp only [parseHexOctet, h1, h2]
  congr 1
  omega

theorem unescapeAux_pct (b : Nat) (hb : b < 256) (t : JSString) :
    unescapeAux 0 (pctOctet b ++ t) = b :: unescapeAux 0 t := by
  have h1 := hexVal_hexChar (b / 16) (by omega)
  have h2 := hexVal_hexChar (b % 16) (by omega)
  have h3 := hexChar_ne_u (b / 16) (by omega)
  have h4 : b / 16 * 16 + b % 16 = b := by omega
  simp [pctOctet, unescapeAux, h3, mapAll, h1, h2, h4]

theorem unescapeAux_plain (c : Nat) (hc : c ≠ 37) (t : JSString) :
    unescapeAux 0 (c :: t) = c :: unescapeAux 0 t := by
  simp [unescapeAux, hc]

/-- `unescape` reads a run of "%XX" escapes back as the octets. -/
theorem unescapeAux_flatMap_pct (bs : List Nat) (hbs : ∀ x ∈ bs, x < 256) (t : JSString) :
    unescapeAux 0 (bs.flatMap pctOctet ++ t) = bs ++ unescapeAux 0 t := by
  induction bs with
  | nil => rfl
  | cons b bs ih =>
    have ih := ih (fun x hx => hbs x (by simp [hx]))
    simp only [List.flatMap_cons, List.append_assoc, List.cons_append]
    rw [unescapeAux_pct b (hbs b (by simp)), ih]

/-! ## Transcoding: one step of `decodeURIComponent` -/

theorem decodeAux_plain (c : Nat) (hc : c ≠ 37) (t : JSString) :
    decodeURIComponentAux 0 (c :: t) = (c :: ·) <$> decodeURIComponentAux 0 t := by
  simp [decodeURIComponentAux, hc]

theorem decodeAux_succ (k a : Nat) (t : JSString) :
    decodeURIComponentAux (k + 1) (a :: t) = decodeURIComponentAux k t := by
  simp [decodeURIComponentAux]

theorem decodeAux_skip (l t : JSString) :
    decodeURIComponentAux l.length (l ++ t) = decodeURIComponentAux 0 t := by
  induction l with
  | nil => rfl
  | cons a l ih =>
    show decodeURIComponentAux (l.length + 1) (a :: (l ++ t)) = _
    rw [decodeAux_succ, ih]

theorem decodeAux_pct_step (rest : JSString) (b : Nat) (h : parseHexOctet rest = some b) :
    decodeURIComponentAux 0 (37 :: rest) =
      if leadingOnes b = 0 then (b :: ·) <$> decodeURIComponentAux 2 rest
      else if leadingOnes b = 1 ∨ 4 < leadingOnes b then none
      else
        match parseContinuation (leadingOnes b - 1) (rest.drop 2) with
        | none => none
        | some octets =>
          match utf8Decode (b :: octets) with
          | none => none
          | some v =>
            (utf16Encode v ++ ·) <$> decodeURIComponentAux (2 + 3 * (leadingOnes b - 1)) rest := by
  rw [decodeURIComponentAux]
  simp only [if_true, h]

theorem pctOctet_append (b : Nat) (t : JSString) :
    pctOctet b ++ t = 37 :: hexChar (b / 16) :: hexChar (b % 16) :: t := rfl

theorem flatMap_pctOctet_length (l : List Nat) : (l.flatMap pctOctet).length = 3 * l.length := by
  induction l with
  | nil => rfl
  | cons a l ih =>
    simp only [List.flatMap_cons, List.length_append, ih, pctOctet, List.length_cons,
      List.length_nil]
    omega

theorem parseContinuation_flatMap_pct (octets : List Nat) (ho : ∀ x ∈ octets, x < 256)
    (t : JSString) :
    parseContinuation octets.length (octets.flatMap pctOctet ++ t) = some octets := by
  induction octets with
  | nil => rfl
  | cons b bs ih =>
    have ih := ih (fun x hx => ho x (by simp [hx]))
    have hb := parseHexOctet_hex b (ho b (by simp)) (bs.flatMap pctOctet ++ t)
    rw [List.flatMap_cons, List.append_assoc, pctOctet_append, List.length_cons,
      parseContinuation]
    simp only [hb, List.drop_succ_cons, List.drop_zero, ih]
    rfl

theorem decodeAux_pct_ascii (b : Nat) (hb : b < 128) (t : JSString) :
    decodeURIComponentAux 0 (pctOctet b ++ t) = (b :: ·) <$> decodeURIComponentAux 0 t := by
  have h := parseHexOctet_hex b (by omega) t
  have hn : leadingOnes b = 0 := by simp [leadingOnes, hb]
  rw [pctOctet_append, decodeAux_pct_step _ b h]
  simp only [hn, if_true, decodeAux_succ]

/-- One step of Decode on the escapes of a lead octet and its continuation
octets, when they are the UTF-8 form of the code point `v`. -/
theorem decodeAux_pct_multi (b v : Nat) (octets : List Nat) (t : JSString)
    (hb : b < 256) (ho : ∀ x ∈ octets, x < 256)
    (hn : leadingOnes b = octets.length + 1) (hlen : 1 ≤ octets.length ∧ octets.length ≤ 3)
    (hv : utf8Decode (b :: octets) = some v) :
    decodeURIComponentAux 0 ((b :: octets).flatMap pctOctet ++ t)
      = (utf16Encode v ++ ·) <$> decodeURIComponentAux 0 t := by
  have h := parseHexOctet_hex b hb (octets.flatMap pctOctet ++ t)
  have hc := parseContinuation_flatMap_pct octets ho t
  have hskip := decodeAux_skip
    (hexChar (b / 16) :: hexChar (b % 16) :: octets.flatMap pctOctet) t
  have hlen2 : (hexChar (b / 16) :: hexChar (b % 16) :: octets.flatMap pctOctet).length
      = 2 + 3 * (leadingOnes b - 1) := by
    simp only [List.length_cons, flatMap_pctOctet_length, hn]
    omega
  rw [hlen2] at hskip
  have hn0 : ¬ leadingOnes b = 0 := by omega
  have hn1 : ¬ (leadingOnes b = 1 ∨ 4 < leadingOnes b) := by omega
  have hn2 : leadingOnes b - 1 = octets.length := by omega
  rw [List.flatMap_cons, List.append_assoc, pctOctet_append, decodeAux_pct_step _ b h]
  simp only [hn0, hn1, if_false, List.drop_succ_cons, List.drop_zero]
  rw [hn2, hc]
  simp only [hv]
  rw [← hn2]
  exact congrArg _ hskip

/-! ## Transcoding: `decodeURIComponent` after `escape` reads UTF-8 back -/

theorem escapeUnit_high (b : Nat) (h1 : 128 ≤ b) (h2 : b < 256) : escapeUnit b = pctOctet b := by
  have : escapeUnescaped b = false := by
    simp only [escapeUnescaped, isAlnum, Bool.or_eq_false_iff, Bool.and_eq_false_iff,
      decide_eq_false_iff_not]
    omega
  simp [escapeUnit, this, h2]

theorem escapeUnit_low (b : Nat) (h : b < 128) :
    (escapeUnit b = [b] ∧ b ≠ 37) ∨ escapeUnit b = pctOctet b := by
  by_cases hu : escapeUnescaped b = true
  · left
    refine ⟨by simp [escapeUnit, hu], ?_⟩
    rintro rfl
    simp [escapeUnescaped, isAlnum] at hu
  · right
    have h2 : b < 256 := by omega
    simp [escapeUnit, hu, h2]

theorem flatMap_escapeUnit_high (bs : List Nat) (h : ∀ x ∈ bs, 128 ≤ x ∧ x < 256) :
    bs.flatMap escapeUnit = bs.flatMap pctOctet := by
  induction bs with
  | nil => rfl
  | cons b bs ih =>
    have hb := h b (by simp)
    simp only [List.flatMap_cons, escapeUnit_high b hb.1 hb.2,
      ih (fun x hx => h x (by simp [hx]))]

theorem utf8Encode_le (cp : Nat) (h : cp < 0x110000) : ∀ x ∈ utf8Encode cp, x ≤ 255 := by
  intro x hx
  unfold utf8Encode at hx
  split_ifs at hx <;> simp only [List.mem_cons, List.mem_singleton, List.not_mem_nil, or_false] at hx
  · omega
  · rcases hx with rfl | rfl <;> omega
  · rcases hx with rfl | rfl | rfl <;> omega
  · rcases hx with rfl | rfl | rfl | rfl <;> omega

/-- Decode reads the escaped UTF-8 octets of a Unicode scalar value back as
its UTF-16 code units. -/
theorem decode_escape_codepoint (cp : Nat) (hmax : cp < 0x110000)
    (hsur : ¬ (0xD800 ≤ cp ∧ cp ≤ 0xDFFF)) (t : JSString) :
    decodeURIComponentAux 0 ((utf8Encode cp).flatMap escapeUnit ++ t)
      = (utf16Encode cp ++ ·) <$> decodeURIComponentAux 0 t := by
  by_cases h1 : cp < 0x80
  · have he : utf8Encode cp = [cp] := by simp [utf8Encode, h1]
    have hu : utf16Encode cp = [cp] := by
      have : cp ≤ 0xFFFF := by omega
      simp [utf16Encode, this]
    rw [he, hu]
    simp only [List.flatMap_cons, List.flatMap_nil, List.append_nil]
    rcases escapeUnit_low cp h1 with ⟨h, hne⟩ | h
    · rw [h]
      exact decodeAux_plain cp hne t
    · rw [h]
      exact decodeAux_pct_ascii cp h1 t
  · by_cases h2 : cp < 0x800
    · have he : utf8Encode cp = [0xC0 + cp / 64, 0x80 + cp % 64] := by
        simp [utf8Encode, h1, h2]
      rw [he, flatMap_escapeUnit_high _ (by
        intro x hx
        simp only [List.mem_cons, List.mem_singleton, List.not_mem_nil, or_false] at hx
        rcases hx with rfl | rfl <;> omega)]
      refine decodeAux_pct_multi _ cp _ t (by omega) ?_ ?_ (by simp) ?_
      · intro x hx
        simp only [List.mem_singleton] at hx
        omega
      · have : ¬ (0xC0 + cp / 64 < 0x80) := by omega
        have : ¬ (0xC0 + cp / 64 < 0xC0) := by omega
        have : 0xC0 + cp / 64 < 0xE0 := by omega
        simp [leadingOnes, *]
      · have hc : isContinuation (0x80 + cp % 64) = true := by
          simp only [isContinuation, Bool.and_eq_true, decide_eq_true_eq]
          omega
        have hv : (0xC0 + cp / 64 - 0xC0) * 64 + (0x80 + cp % 64 - 0x80) = cp := by omega
        have h80 : 0x80 ≤ cp := by omega
        simp only [utf8Decode, hc, hv, h80, and_self, if_true]
    · by_cases h3 : cp < 0x10000
      · have he : utf8Encode cp = [0xE0 + cp / 4096, 0x80 + cp / 64 % 64, 0x80 + cp % 64] := by
          simp [utf8Encode, h1, h2, h3]
        rw [he, flatMap_escapeUnit_high _ (by
          intro x hx
          simp only [List.mem_cons, List.mem_singleton, List.not_mem_nil, or_false] at hx
          rcases hx with rfl | rfl | rfl <;> omega)]
        refine decodeAux_pct_multi _ cp _ t (by omega) ?_ ?_ (by simp) ?_
        · intro x hx
          simp only [List.mem_cons, List.mem_singleton, List.not_mem_nil, or_false] at hx
          rcases hx with rfl | rfl <;> omega
        · have : ¬ (0xE0 + cp / 4096 < 0x80) := by omega
          have : ¬ (0xE0 + cp / 4096 < 0xC0) := by omega
          have : ¬ (0xE0 + cp / 4096 < 0xE0) := by omega
          have : 0xE0 + cp / 4096 < 0xF0 := by omega
          simp [leadingOnes, *]
        · have hc1 : isContinuation (0x80 + cp / 64 % 64) = true := by
            simp only [isContinuation, Bool.and_eq_true, decide_eq_true_eq]
            omega
          have hc2 : isContinuation (0x80 + cp % 64) = true := by
            simp only [isContinuation, Bool.and_eq_true, decide_eq_true_eq]
            omega
          have hv : ((0xE0 + cp / 4096 - 0xE0) * 64 + (0x80 + cp / 64 % 64 - 0x80)) * 64
              + (0x80 + cp % 64 - 0x80) = cp := by omega
          have h800 : 0x800 ≤ cp := by omega
          simp only [utf8Decode, hc1, hc2, hv, h800, hsur, not_false_eq_true, and_self, if_true]
      · have he : utf8Encode cp
            = [0xF0 + cp / 262144, 0x80 + cp / 4096 % 64, 0x80 + cp / 64 % 64,
               0x80 + cp % 64] := by
          simp [utf8Encode, h1, h2, h3]
        have hu : ¬ cp ≤ 0xFFFF := by omega
        rw [he, flatMap_escapeUnit_high _ (by
          intro x hx
          simp only [List.mem_cons, List.mem_singleton, List.not_mem_nil, or_false] at hx
          rcases hx with rfl | rfl | rfl | rfl <;> omega)]
        refine decodeAux_pct_multi _ cp _ t (by omega) ?_ ?_ (by simp) ?_
        · intro x hx
          simp only [List.mem_cons, List.mem_singleton, List.not_mem_nil, or_false] at hx
          rcases hx with rfl | rfl | rfl <;> omega
        · have : ¬ (0xF0 + cp / 262144 < 0x80) := by omega
          have : ¬ (0xF0 + cp / 262144 < 0xC0) := by omega
          have : ¬ (0xF0 + cp / 262144 < 0xE0) := by omega
          have : ¬ (0xF0 + cp / 262144 < 0xF0) := by omega
          have : 0xF0 + cp / 262144 < 0xF8 := by omega
          simp [leadingOnes, *]
        · have hc1 : isContinuation (0x80 + cp / 4096 % 64) = true := by
            simp only [isContinuation, Bool.and_eq_true, decide_eq_true_eq]
            omega
          have hc2 : isContinuation (0x80 + cp / 64 % 64) = true := by
            simp only [isContinuation, Bool.and_eq_true, decide_eq_true_eq]
            omega
          have hc3 : isContinuation (0x80 + cp % 64) = true := by
            simp only [isContinuation, Bool.and_eq_true, decide_eq_true_eq]
            omega
          have hv : (((0xF0 + cp / 262144 - 0xF0) * 64 + (0x80 + cp / 4096 % 64 - 0x80)) * 64
              + (0x80 + cp / 64 % 64 - 0x80)) * 64 + (0x80 + cp % 64 - 0x80) = cp := by omega
          have h10000 : 0x10000 ≤ cp := by omega
          have hle : cp ≤ 0x10FFFF := by omega
          simp only [utf8Decode, hc1, hc2, hc3, hv, h10000, hle, and_self, if_true]

/-! ## Transcoding: the utf8 chain on a well-formed string -/

theorem uriUnreserved_lt (c : Nat) (h : uriUnreserved c = true) : c < 128 ∧ c ≠ 37 := by
  simp only [uriUnreserved, isAlnum, Bool.or_eq_true, Bool.and_eq_true, decide_eq_true_eq] at h
  omega

theorem roundtrip_step (cp : Nat) (hmax : cp < 0x110000) (hsur : ¬ (0xD800 ≤ cp ∧ cp ≤ 0xDFFF))
    (bytes rest : JSString) (hbytes : ∀ x ∈ bytes, x ≤ 255)
    (hdec : decodeURIComponentAux 0 (escape bytes) = some rest) :
    (∀ x ∈ utf8Encode cp ++ bytes, x ≤ 255) ∧
      decodeURIComponentAux 0 (escape (utf8Encode cp ++ bytes)) = some (utf16Encode cp ++ rest) := by
  constructor
  · intro x hx
    rcases List.mem_append.mp hx with h | h
    · exact utf8Encode_le cp hmax x h
    · exact hbytes x h
  · have : escape (utf8Encode cp ++ bytes) = (utf8Encode cp).flatMap escapeUnit ++ escape bytes := by
      simp [escape, List.flatMap_append]
    rw [this, decode_escape_codepoint cp hmax hsur, hdec]
    rfl

theorem encodeAux_unreserved (c : Nat) (h : uriUnreserved c = true) (rest : JSString) :
    encodeURIComponentAux 0 (c :: rest) = (c :: ·) <$> encodeURIComponentAux 0 rest := by
  simp [encodeURIComponentAux, h]

theorem encodeAux_single (c : Nat) (h : uriUnreserved c = false) (hl : isLeadSurrogate c = false)
    (ht : isTrailSurrogate c = false) (rest : JSString) :
    encodeURIComponentAux 0 (c :: rest)
      = ((utf8Encode c).flatMap pctOctet ++ ·) <$> encodeURIComponentAux 0 rest := by
  simp [encodeURIComponentAux, h, hl, ht]

theorem encodeAux_pair (c d : Nat) (hl : isLeadSurrogate c = true)
    (ht : isTrailSurrogate d = true) (rest : JSString) :
    encodeURIComponentAux 0 (c :: d :: rest)
      = ((utf8Encode (surrogatePairToCodePoint c d)).flatMap pctOctet ++ ·) <$>
          encodeURIComponentAux 0 rest := by
  have h : uriUnreserved c = false := by
    cases hu : uriUnreserved c
    · rfl
    · have := uriUnreserved_lt c hu
      simp only [isLeadSurrogate, Bool.and_eq_true, decide_eq_true_eq] at hl
      omega
  simp [encodeURIComponentAux, h, hl, ht]

theorem utf16Encode_pair (c d : Nat) (hl : isLeadSurrogate c = true)
    (ht : isTrailSurrogate d = true) :
    utf16Encode (surrogatePairToCodePoint c d) = [c, d] ∧
      surrogatePairToCodePoint c d < 0x110000 ∧ 0x10000 ≤ surrogatePairToCodePoint c d := by
  simp only [isLeadSurrogate, isTrailSurrogate, Bool.and_eq_true, decide_eq_true_eq] at hl ht
  unfold surrogatePairToCodePoint
  have h1 : ¬ (c - 0xD800) * 0x400 + (d - 0xDC00) + 0x10000 ≤ 0xFFFF := by omega
  refine ⟨?_, ?_, ?_⟩
  · simp only [utf16Encode, h1, if_false, List.cons.injEq, and_true]
    omega
  · omega
  · omega

/-- On a well-formed string `encodeURIComponent` succeeds, `unescape` turns
its result into a binary string, and `decodeURIComponent` after `escape`
turns that binary string back into the string. -/
theorem utf8_roundtrip_aux (s : JSString) (hs : wellFormed s = true) :
    ∃ escaped, encodeURIComponentAux 0 s = some escaped ∧
      (∀ x ∈ unescapeAux 0 escaped, x ≤ 255) ∧
      decodeURIComponentAux 0 (escape (unescapeAux 0 escaped)) = some s := by
  induction s using wellFormed.induct with
  | case1 => exact ⟨[], rfl, by simp [unescapeAux], rfl⟩
  | case2 c hl => simp [wellFormed, hl] at hs
  | case3 c hl d rest ih =>
    simp only [wellFormed, hl, if_true, Bool.and_eq_true] at hs
    obtain ⟨escaped, henc, hle, hdec⟩ := ih hs.2
    obtain ⟨hu, hmax, hmin⟩ := utf16Encode_pair c d hl hs.1
    have hstep := roundtrip_step (surrogatePairToCodePoint c d) hmax (by omega)
      (unescapeAux 0 escaped) rest hle hdec
    refine ⟨(utf8Encode (surrogatePairToCodePoint c d)).flatMap pctOctet ++ escaped, ?_, ?_⟩
    · rw [encodeAux_pair c d hl hs.1, henc]
      rfl
    · rw [unescapeAux_flatMap_pct _ (fun x hx => by
        have := utf8Encode_le _ hmax x hx
        omega)]
      rw [hu] at hstep
      exact hstep
  | case4 c rest hl ih =>
    have hl : isLeadSurrogate c = false := by simpa using hl
    unfold wellFormed at hs
    simp only [hl, Bool.false_eq_true, if_false, Bool.and_eq_true, Bool.not_eq_true',
      decide_eq_true_eq] at hs
    obtain ⟨⟨ht, hlt⟩, hrest⟩ := hs
    obtain ⟨escaped, henc, hle, hdec⟩ := ih hrest
    have hsur : ¬ (0xD800 ≤ c ∧ c ≤ 0xDFFF) := by
      simp only [isLeadSurrogate, isTrailSurrogate, Bool.and_eq_false_iff,
        decide_eq_false_iff_not] at hl ht
      omega
    have hstep := roundtrip_step c (by omega) hsur (unescapeAux 0 escaped) rest hle hdec
    have hu : utf16Encode c = [c] := by
      have : c ≤ 0xFFFF := by omega
      simp [utf16Encode, this]
    rw [hu] at hstep
    by_cases hun : uriUnreserved c = true
    · obtain ⟨h128, h37⟩ := uriUnreserved_lt c hun
      have he : utf8Encode c = [c] := by simp [utf8Encode, h128]
      rw [he] at hstep
      refine ⟨c :: escaped, ?_, ?_⟩
      · rw [encodeAux_unreserved c hun, henc]
        rfl
      · rw [unescapeAux_plain c h37]
        exact hstep
    · have hun : uriUnreserved c = false := by simpa using hun
      refine ⟨(utf8Encode c).flatMap pctOctet ++ escaped, ?_, ?_⟩
      · rw [encodeAux_single c hun hl ht, henc]
        rfl
      · rw [unescapeAux_flatMap_pct _ (fun x hx => by
          have := utf8Encode_le c (by omega) x hx
          omega)]
        exact hstep

/-! ## Transcoding: the round trip -/

/-- On a string with an unpaired surrogate `encodeURIComponent` throws. -/
theorem encodeAux_ill_formed (s : JSString) (hs : wellFormed s = false)
    (hunits : ∀ c ∈ s, c < 0x10000) : encodeURIComponentAux 0 s = none := by
  induction s using wellFormed.induct with
  | case1 => simp [wellFormed] at hs
  | case2 c hl =>
    have h : uriUnreserved c = false := by
      cases hu : uriUnreserved c
      · rfl
      · have := uriUnreserved_lt c hu
        simp only [isLeadSurrogate, Bool.and_eq_true, decide_eq_true_eq] at hl
        omega
    simp [encodeURIComponentAux, h, hl]
  | case3 c hl d rest ih =>
    have h : uriUnreserved c = false := by
      cases hu : uriUnreserved c
      · rfl
      · have := uriUnreserved_lt c hu
        simp only [isLeadSurrogate, Bool.and_eq_true, decide_eq_true_eq] at hl
        omega
    by_cases ht : isTrailSurrogate d = true
    · simp only [wellFormed, hl, if_true, ht, Bool.true_and] at hs
      have ih := ih hs (fun x hx => hunits x (by simp [hx]))
      rw [encodeAux_pair c d hl ht, ih]
      rfl
    · simp [encodeURIComponentAux, h, hl, ht]
  | case4 c rest hl ih =>
    have hl : isLeadSurrogate c = false := by simpa using hl
    have hc := hunits c (by simp)
    by_cases ht : isTrailSurrogate c = true
    · have h : uriUnreserved c = false := by
        cases hu : uriUnreserved c
        · rfl
        · have := uriUnreserved_lt c hu
          simp only [isTrailSurrogate, Bool.and_eq_true, decide_eq_true_eq] at ht
          omega
      simp [encodeURIComponentAux, h, hl, ht]
    · have ht : isTrailSurrogate c = false := by simpa using ht
      unfold wellFormed at hs
      simp only [hl, Bool.false_eq_true, if_false, ht, Bool.not_false, Bool.true_and, hc,
        decide_True] at hs
      have ih := ih hs (fun x hx => hunits x (by simp [hx]))
      by_cases hun : uriUnreserved c = true
      · rw [encodeAux_unreserved c hun, ih]
        rfl
      · have hun : uriUnreserved c = false := by simpa using hun
        rw [encodeAux_single c hun hl ht, ih]
        rfl

/-- Outside the domains the encodings throw: `encode` with "utf8" throws
URIError on every string that is not well-formed UTF-16, and with "ascii" it
throws InvalidCharacterError on every string that has a code unit above
0xFF. -/
theorem encode_outside_domain (s : JSString) (hunits : ∀ c ∈ s, c < 0x10000) :
    (wellFormed s = false → encode s (.string utf8) = .error .uriError) ∧
    (isBinaryString s = false → encode s (.string ascii) = .error .invalidCharacterError) := by
  constructor
  · intro h
    have := encodeAux_ill_formed s h hunits
    simp only [encode, encodeURIComponent, this]
    rfl
  · intro h
    have hb : btoa s = none := by
      simp only [isBinaryString] at h
      simp [btoa, h]
    simp only [encode, hb]
    rfl

/-- C1, as the claim states it, fails: `encode` throws on the euro sign
(code unit 0x20AC) with "ascii", and on the unpaired surrogate 0xD800 with
"utf8", so `decode(encode(s, encoding), encoding)` returns nothing there. -/
theorem encode_throws_on_some_strings :
    encode [0x20AC] (.string ascii) = .error .invalidCharacterError ∧
    encode [0xD800] (.string utf8) = .error .uriError :=
  ⟨rfl, rfl⟩

/-- C1, amended: `decode(encode(s, encoding), encoding)` returns `s`, the
encoding succeeding, for every string `s` with "base64", for every string
whose code units are all at most 0xFF with "ascii", and for every
well-formed UTF-16 string (no unpaired surrogate) with "utf8". -/
theorem decode_encode_roundtrip (s : JSString) :
    (wellFormed s = true →
      ∃ b64, encode s (.string utf8) = .ok b64 ∧ decode b64 (.string utf8) = .ok s) ∧
    (isBinaryString s = true →
      ∃ b64, encode s (.string ascii) = .ok b64 ∧ decode b64 (.string ascii) = .ok s) ∧
    (∃ b64, encode s (.string base64) = .ok b64 ∧ decode b64 (.string base64) = .ok s) := by
  refine ⟨?_, ?_, ⟨s, rfl, rfl⟩⟩
  · intro hs
    obtain ⟨escaped, henc, hle, hdec⟩ := utf8_roundtrip_aux s hs
    obtain ⟨hbtoa, hatob⟩ := atob_btoa (unescapeAux 0 escaped) hle
    refine ⟨base64Encode (unescapeAux 0 escaped), ?_, ?_⟩
    · simp only [encode, encodeURIComponent, henc, unescape, hbtoa]
      rfl
    · simp only [decode, hatob, decodeURIComponent, hdec]
      rfl
  · intro hs
    have hle : ∀ x ∈ s, x ≤ 255 := by
      simpa [isBinaryString] using hs
    obtain ⟨hbtoa, hatob⟩ := atob_btoa s hle
    refine ⟨base64Encode s, ?_, ?_⟩
    · simp only [encode, hbtoa]
      rfl
    · simp only [decode, hatob]
      rfl

/-- Witness of C1, amended: the string of the letter A, the euro sign and
the surrogate pair of U+1F600 in "utf8", and the string of the code units
0x41 and 0xFF in "ascii". -/
theorem decode_encode_roundtrip_witness :
    (∃ b64, encode [0x41, 0x20AC, 0xD83D, 0xDE00] (.string utf8) = .ok b64 ∧
      decode b64 (.string utf8) = .ok [0x41, 0x20AC, 0xD83D, 0xDE00]) ∧
    (∃ b64, encode [0x41, 0xFF] (.string ascii) = .ok b64 ∧
      decode b64 (.string ascii) = .ok [0x41, 0xFF]) :=
  ⟨(decode_encode_roundtrip [0x41, 0x20AC, 0xD83D, 0xDE00]).1 (by decide),
   (decode_encode_roundtrip [0x41, 0xFF]).2.1 (by decide)⟩

end RNFS
